import Mathlib

/-!
Verification of the StockUtils feature-derivation pipeline (src/procs/Procs.py).

The pandas data model is shallowly embedded as follows:

* a cell value is `Option ℚ` with `none` playing the role of NaN
  (comparisons against NaN are false, NaN propagates through arithmetic,
  quantiles and min/max skip NaN);
* a dataframe is an ordered association list of named columns,
  `List (String × List Value)`; column assignment overwrites an existing
  column in place and appends a new column at the end, exactly as pandas
  column assignment does;
* dates are modelled as already-comparable rational values; date parsing
  (`pd.to_datetime`) is an external boundary and acts as the identity
  re-assignment of the date column;
* `pd.merge(l, r, on=k)` is the inner join: left rows in order, each
  matched against the right rows sharing the same (non-NaN) key, the
  key column kept from the left, followed by the right non-key columns;
* `fillna(0)` without re-assignment is a pure call whose result is
  discarded, which the embedding mirrors with a discarded `let`.

Each `proc_*` definition below is translated statement by statement from
the Python source.  The functions that fetch external indicator data are
split into a pure core taking the fetched table as an argument and an
`Except` wrapper (`proc_*E`) whose first action is the fetch, mirroring
the statement order of the source.
-/

abbrev Value := Option ℚ

abbrev DF := List (String × List Value)

/-- Column lookup, `df[name]`; the empty series if the column is absent. -/
def getCol : DF → String → List Value
  | [], _ => []
  | c :: rest, n => if c.1 = n then c.2 else getCol rest n

/-- Column membership, `name in df.columns`. -/
def hasCol : DF → String → Bool
  | [], _ => false
  | c :: rest, n => c.1 = n || hasCol rest n

/-- Column assignment `df[name] = xs`: overwrites the column in place when
present, otherwise appends it at the end, as pandas does. -/
def setCol : DF → String → List Value → DF
  | [], n, xs => [(n, xs)]
  | c :: rest, n, xs => if c.1 = n then (n, xs) :: rest else c :: setCol rest n xs

/-- Comparison `a < b` on cells; any comparison involving NaN is false. -/
def vlt (a b : Value) : Bool :=
  match a, b with
  | some x, some y => decide (x < y)
  | _, _ => false

/-- Cell subtraction with NaN propagation. -/
def vsub (a b : Value) : Value :=
  match a, b with
  | some x, some y => some (x - y)
  | _, _ => none

/-- Cell addition with NaN propagation. -/
def vadd (a b : Value) : Value :=
  match a, b with
  | some x, some y => some (x + y)
  | _, _ => none

/-- Elementwise difference of two columns. -/
def colSub (a b : List Value) : List Value := List.zipWith vsub a b

/-- Elementwise sum of two columns. -/
def colAdd (a b : List Value) : List Value := List.zipWith vadd a b

/-- Forward fill used by pandas `pct_change` (its default `fill_method`
is pad): each NaN is replaced by the last preceding non-NaN value. -/
def padFillAux : Value → List Value → List Value
  | _, [] => []
  | last, v :: t =>
    match v with
    | some x => some x :: padFillAux (some x) t
    | none => last :: padFillAux last t

def padFill (xs : List Value) : List Value := padFillAux none xs

/-- One step of `pct_change`: current over previous minus one.  The first
row has no previous value (NaN); a zero previous value has no finite
percentage change and is modelled as NaN as well. -/
def pcVal (prev cur : Value) : Value :=
  match prev, cur with
  | some p, some c => if p = 0 then none else some (c / p - 1)
  | _, _ => none

/-- Series `pct_change()`: pad-fill, then divide each value by its
predecessor; the first entry is always NaN. -/
def pctChange (xs : List Value) : List Value :=
  let f := padFill xs
  List.zipWith pcVal (none :: f) f

/-- Replaces NaN cells with zero in every column, `df.fillna(0)`. -/
def fillCol (xs : List Value) : List Value := xs.map (fun v => some (v.getD 0))

/-- Procs.proc_fill_nan: replaces NaN with zeros. -/
def proc_fill_nan (df : DF) : DF := df.map (fun c => (c.1, fillCol c.2))

/-- Procs.__rename_column: `df.rename(columns=(old to nw))`, renaming
every column named `old` in place. -/
def __rename_column : DF → String → String → DF
  | [], _, _ => []
  | c :: rest, old, nw =>
    (if c.1 = old then (nw, c.2) else c) :: __rename_column rest old nw

/-- Procs.convert_date: coerces the date column to datetime.  Dates are
modelled as already-comparable values, so the conversion is the identity
re-assignment of the column (date parsing is an external boundary). -/
def convert_date (df : DF) (date_col_name : String) : DF :=
  setCol df date_col_name (getCol df date_col_name)

/-- Indices `j` of the right key column matching a given left key; NaN
keys match nothing. -/
def keyMatches (v : Value) : List Value → List Nat
  | [] => []
  | w :: rest =>
    let tail := (keyMatches v rest).map (fun j => j + 1)
    match v, w with
    | some a, some b => if a = b then 0 :: tail else tail
    | _, _ => tail

/-- Matched index pairs of an inner join, in left order, then right order
within one left key. -/
def mergeIdxAux : Nat → List Value → List Value → List (Nat × Nat)
  | _, [], _ => []
  | i, v :: rest, kr =>
    (keyMatches v kr).map (fun j => (i, j)) ++ mergeIdxAux (i + 1) rest kr

def mergeIdx (kl kr : List Value) : List (Nat × Nat) := mergeIdxAux 0 kl kr

/-- Reads a column at a list of row indices. -/
def takeIdx (xs : List Value) (is : List Nat) : List Value :=
  is.map (fun i => (xs.get? i).getD none)

/-- Inner join `pd.merge(l, r, on=k)`: rows whose key occurs in both
tables, the key column kept from the left table, followed by the right
non-key columns.  Unmatched rows are dropped; no null padding occurs. -/
def merge (l r : DF) (key : String) : DF :=
  let idx := mergeIdx (getCol l key) (getCol r key)
  l.map (fun c => (c.1, takeIdx c.2 (idx.map Prod.fst))) ++
    (r.filter (fun c => !(c.1 == key))).map
      (fun c => (c.1, takeIdx c.2 (idx.map Prod.snd)))

/-- Procs.__update_meta_data, translated exactly as written: when a
literal "Date" is among the new column names the function only removes
it from the local name list and appends nothing, because the append loop
sits in the else branch; only when "Date" is absent are the names
appended to the metadata list. -/
def __update_meta_data (var : List String) (column_names : List String) :
    List String :=
  if "Date" ∈ column_names then var else var ++ column_names

/-- Procs.proc_add_percent_change: adds the `<column>-pct` column and
registers it as continuous metadata. -/
def proc_add_percent_change (df : DF) (column_name : String)
    (cont_vars : List String) : DF × List String :=
  let name := "-pct"
  (setCol df (column_name ++ name) (pctChange (getCol df column_name)),
   cont_vars ++ [column_name ++ name])

/-- Procs.proc_add_ohlc_avg: adds the row average of the four OHLC
prices, plus one difference column or four OHLC difference columns when
the respective flag is set. -/
def proc_add_ohlc_avg (df : DF) (cont_vars : List String)
    (add_diff : Bool) (diff_col : String) (add_ohlc_diff : Bool) :
    DF × List String :=
  let col_name := "ohlc_avg"
  let avg := (colAdd (colAdd (colAdd (getCol df "Open") (getCol df "High"))
      (getCol df "Low")) (getCol df "Close")).map (fun v => v.map (fun x => x / 4))
  let df := setCol df col_name avg
  let cont_vars := cont_vars ++ [col_name]
  if add_diff then
    (setCol df (diff_col ++ "_" ++ col_name ++ "_Diff")
        (colSub (getCol df diff_col) (getCol df col_name)),
     cont_vars ++ [diff_col ++ "_" ++ col_name ++ "_Diff"])
  else if add_ohlc_diff then
    (["Open", "High", "Low", "Close"].foldl
        (fun acc c_name =>
          (setCol acc.1 (c_name ++ "_" ++ col_name ++ "_Diff")
              (colSub (getCol acc.1 c_name) (getCol acc.1 col_name)),
           acc.2 ++ [c_name ++ "_" ++ col_name ++ "_Diff"]))
        (df, cont_vars))
  else
    (df, cont_vars)

/-- Welford accumulator state, modelled from the spec (section 4.1): the
class OnlineVariance of src/procs/OnlineVariance.py is imported by the
source but its file is not among the provided sources. -/
structure OnlineVariance where
  count : ℕ
  mean : ℚ
  sumSquaredDeltas : ℚ

/-- Modelled from the spec: the fresh accumulator before any inclusion
(OnlineVariance.__init__ is not among the provided sources). -/
def OnlineVariance.init : OnlineVariance := ⟨0, 0, 0⟩

/-- Modelled from the spec: OnlineVariance.include(x) performs the
Welford update — count += 1; delta = x - mean; mean += delta / count;
delta2 = x - mean; sumSquaredDeltas += delta * delta2. -/
def OnlineVariance.includeVal (ov : OnlineVariance) (x : ℚ) : OnlineVariance :=
  let count := ov.count + 1
  let delta := x - ov.mean
  let mean := ov.mean + delta / count
  let delta2 := x - mean
  { count := count, mean := mean,
    sumSquaredDeltas := ov.sumSquaredDeltas + delta * delta2 }

/-- Modelled from the spec: variance = sumSquaredDeltas / (count - 1)
when count > 1, else 0 (fewer than two samples report 0, not an error). -/
def OnlineVariance.variance (ov : OnlineVariance) : ℚ :=
  if 1 < ov.count then ov.sumSquaredDeltas / ((ov.count : ℚ) - 1) else 0

/-- Folds a whole sample list into a fresh accumulator. -/
def OnlineVariance.ofList (xs : List ℚ) : OnlineVariance :=
  xs.foldl OnlineVariance.includeVal OnlineVariance.init

/-- Procs.proc_add_adx, pure core: the fetched ADX table is a parameter;
the body mirrors the source statement by statement, including the final
`df_merge.fillna(0)` call whose result the source discards. -/
def proc_add_adx (df : DF) (cont_vars : List String) (adx_data0 : DF)
    (change : Bool) : DF × List String :=
  let adx_data := __rename_column adx_data0 "date" "Date"
  let adx_data := convert_date adx_data "Date"
  let cont_vars := cont_vars ++ ["ADX"]
  let df_merge := merge df adx_data "Date"
  let res :=
    if change then
      (setCol df_merge "ADX_CHANGE" (pctChange (getCol df_merge "ADX")),
       cont_vars ++ ["ADX_CHANGE"])
    else (df_merge, cont_vars)
  let _ := proc_fill_nan res.1
  res

/-- Procs.proc_add_obv, pure core (same shape as proc_add_adx). -/
def proc_add_obv (df : DF) (cont_vars : List String) (obv_data0 : DF)
    (change : Bool) : DF × List String :=
  let obv_data := __rename_column obv_data0 "date" "Date"
  let obv_data := convert_date obv_data "Date"
  let cont_vars := cont_vars ++ ["OBV"]
  let df_merge := merge df obv_data "Date"
  let res :=
    if change then
      (setCol df_merge "OBV_CHANGE" (pctChange (getCol df_merge "OBV")),
       cont_vars ++ ["OBV_CHANGE"])
    else (df_merge, cont_vars)
  let _ := proc_fill_nan res.1
  res

/-- Procs.proc_add_mom, pure core: merge happens before the metadata
append, and the change column is named "MOM-pct" in the source. -/
def proc_add_mom (df : DF) (cont_vars : List String) (mom_data0 : DF)
    (change : Bool) : DF × List String :=
  let mom_data := __rename_column mom_data0 "date" "Date"
  let mom_data := convert_date mom_data "Date"
  let df_merge := merge df mom_data "Date"
  let cont_vars := cont_vars ++ ["MOM"]
  let res :=
    if change then
      (setCol df_merge "MOM-pct" (pctChange (getCol df_merge "MOM")),
       cont_vars ++ ["MOM-pct"])
    else (df_merge, cont_vars)
  let _ := proc_fill_nan res.1
  res

/-- Procs.proc_add_rsi, pure core (same shape as proc_add_adx). -/
def proc_add_rsi (df : DF) (cont_vars : List String) (rsi_data0 : DF)
    (change : Bool) : DF × List String :=
  let rsi_data := __rename_column rsi_data0 "date" "Date"
  let rsi_data := convert_date rsi_data "Date"
  let cont_vars := cont_vars ++ ["RSI"]
  let df_merge := merge df rsi_data "Date"
  let res :=
    if change then
      (setCol df_merge "RSI_CHANGE" (pctChange (getCol df_merge "RSI")),
       cont_vars ++ ["RSI_CHANGE"])
    else (df_merge, cont_vars)
  let _ := proc_fill_nan res.1
  res

/-- Procs.proc_add_bband, pure core: renames the three band columns and
the date column, calls __update_meta_data on the fetched column names
(with the misplaced append, see that definition), skips the DBG block
(DBG is the constant False), and merges according to the two flags. -/
def proc_add_bband (df : DF) (cont_vars : List String) (bb_data0 : DF)
    (merge_on : String) (add_diff_to_bb : Bool) (diff_col : String)
    (add_ohlc_diff : Bool) : DF × List String :=
  let bb_data := __rename_column bb_data0 "Real Upper Band" "BB_UP"
  let bb_data := __rename_column bb_data "Real Middle Band" "BB_MID"
  let bb_data := __rename_column bb_data "Real Lower Band" "BB_LOW"
  let bb_data := __rename_column bb_data "date" "Date"
  let bb_data := convert_date bb_data "Date"
  let cont_vars := __update_meta_data cont_vars (bb_data.map Prod.fst)
  if add_diff_to_bb then
    let df_merge := merge df bb_data merge_on
    let df_merge := setCol df_merge "Close_BB_UP_Diff"
      (colSub (getCol df_merge diff_col) (getCol df_merge "BB_UP"))
    let cont_vars := cont_vars ++ ["Close_BB_UP_Diff"]
    let df_merge := setCol df_merge "Close_BB_MID_Diff"
      (colSub (getCol df_merge diff_col) (getCol df_merge "BB_MID"))
    let cont_vars := cont_vars ++ ["Close_BB_MID_Diff"]
    let df_merge := setCol df_merge "Close_BB_LOW_Diff"
      (colSub (getCol df_merge diff_col) (getCol df_merge "BB_LOW"))
    let cont_vars := cont_vars ++ ["Close_BB_LOW_Diff"]
    (df_merge, cont_vars)
  else if add_ohlc_diff then
    let df_merge := merge df bb_data merge_on
    let band_columns := (bb_data.map Prod.fst).erase "Date"
    band_columns.foldl
      (fun acc b_name =>
        ["Open", "High", "Low", "Close"].foldl
          (fun acc2 c_name =>
            (setCol acc2.1 (c_name ++ "_" ++ b_name ++ "_Diff")
                (colSub (getCol acc2.1 c_name) (getCol acc2.1 b_name)),
             acc2.2 ++ [c_name ++ "_" ++ b_name ++ "_Diff"]))
          acc)
      (df_merge, cont_vars)
  else
    (merge df bb_data merge_on, cont_vars)

/-- Procs.proc_add_macd, pure core. -/
def proc_add_macd (df : DF) (cont_vars : List String) (macd_data0 : DF) :
    DF × List String :=
  let macd_data := __rename_column macd_data0 "date" "Date"
  let macd_data := convert_date macd_data "Date"
  let cont_vars := cont_vars ++ ["MACD", "MACD_Signal", "MACD_Hist"]
  let df_merge := merge df macd_data "Date"
  let df_merge := setCol df_merge "MACD_SIGN_DIFF"
    (colSub (getCol df_merge "MACD") (getCol df_merge "MACD_Signal"))
  let cont_vars := cont_vars ++ ["MACD_SIGN_DIFF"]
  let macd_columns := (macd_data.map Prod.fst).erase "Date"
  macd_columns.foldl
    (fun acc col =>
      (setCol acc.1 (col ++ "_Change") (pctChange (getCol acc.1 col)),
       acc.2 ++ [col ++ "_Change"]))
    (df_merge, cont_vars)

/-- Uppercase of a string, `mov_avg.upper()` in the source, written as a
character map over the string data so that it evaluates by reduction. -/
def strUpper (s : String) : String := ⟨s.data.map Char.toUpper⟩

/-- Procs.proc_add_mov_avg, pure core: the fetched moving-average table
is a parameter; the body mirrors the source, including the untouched
`ma_data.fillna(0)` result. -/
def proc_add_mov_avg (df : DF) (cont_vars : List String) (ma_data0 : DF)
    (mov_avg : String) (time_period : ℕ) (merge_on : String)
    (add_diff : Bool) (diff_col : String) (add_ohlc_diff : Bool) :
    DF × List String :=
  let ma_data := convert_date ma_data0 "date"
  let ma_data := __rename_column ma_data "date" "Date"
  let col_name := (strUpper mov_avg) ++ "_" ++ toString time_period
  let ma_data := __rename_column ma_data (strUpper mov_avg) col_name
  let cont_vars := cont_vars ++ [col_name]
  let chg_name := col_name ++ "_CHANGE"
  let ma_data := setCol ma_data chg_name (pctChange (getCol ma_data col_name))
  let cont_vars := cont_vars ++ [chg_name]
  let _ := proc_fill_nan ma_data
  if add_diff then
    let df_merge := merge df ma_data merge_on
    (setCol df_merge (diff_col ++ "_" ++ col_name ++ "_Diff")
        (colSub (getCol df_merge diff_col) (getCol df_merge col_name)),
     cont_vars ++ [diff_col ++ "_" ++ col_name ++ "_Diff"])
  else if add_ohlc_diff then
    ["Open", "High", "Low", "Close"].foldl
      (fun acc c_name =>
        (setCol acc.1 (c_name ++ "_" ++ col_name ++ "_Diff")
            (colSub (getCol acc.1 c_name) (getCol acc.1 col_name)),
         acc.2 ++ [c_name ++ "_" ++ col_name ++ "_Diff"]))
      (merge df ma_data merge_on, cont_vars)
  else
    (merge df ma_data merge_on, cont_vars)

/-- Except wrapper for proc_add_adx: the cache fetch is the first
effectful step of the source function, so a failing fetch propagates
before any table or metadata update. -/
def proc_add_adxE (fetched : Except Unit DF) (df : DF)
    (cont_vars : List String) (change : Bool) :
    Except Unit (DF × List String) := do
  let adx_data ← fetched
  pure (proc_add_adx df cont_vars adx_data change)

/-- Except wrapper for proc_add_obv (fetch first). -/
def proc_add_obvE (fetched : Except Unit DF) (df : DF)
    (cont_vars : List String) (change : Bool) :
    Except Unit (DF × List String) := do
  let obv_data ← fetched
  pure (proc_add_obv df cont_vars obv_data change)

/-- Except wrapper for proc_add_mom (fetch first). -/
def proc_add_momE (fetched : Except Unit DF) (df : DF)
    (cont_vars : List String) (change : Bool) :
    Except Unit (DF × List String) := do
  let mom_data ← fetched
  pure (proc_add_mom df cont_vars mom_data change)

/-- Except wrapper for proc_add_rsi (fetch first). -/
def proc_add_rsiE (fetched : Except Unit DF) (df : DF)
    (cont_vars : List String) (change : Bool) :
    Except Unit (DF × List String) := do
  let rsi_data ← fetched
  pure (proc_add_rsi df cont_vars rsi_data change)

/-- Except wrapper for proc_add_bband (fetch first). -/
def proc_add_bbandE (fetched : Except Unit DF) (df : DF)
    (cont_vars : List String) (merge_on : String) (add_diff_to_bb : Bool)
    (diff_col : String) (add_ohlc_diff : Bool) :
    Except Unit (DF × List String) := do
  let bb_data ← fetched
  pure (proc_add_bband df cont_vars bb_data merge_on add_diff_to_bb diff_col
    add_ohlc_diff)

/-- Except wrapper for proc_add_macd (fetch first). -/
def proc_add_macdE (fetched : Except Unit DF) (df : DF)
    (cont_vars : List String) : Except Unit (DF × List String) := do
  let macd_data ← fetched
  pure (proc_add_macd df cont_vars macd_data)

/-- Except wrapper for proc_add_mov_avg: the fetch inside
__load_moving_avg is the first effectful step (the string dispatch on
the moving-average kind before it is pure). -/
def proc_add_mov_avgE (fetched : Except Unit DF) (df : DF)
    (cont_vars : List String) (mov_avg : String) (time_period : ℕ)
    (merge_on : String) (add_diff : Bool) (diff_col : String)
    (add_ohlc_diff : Bool) : Except Unit (DF × List String) := do
  let ma_data ← fetched
  pure (proc_add_mov_avg df cont_vars ma_data mov_avg time_period merge_on
    add_diff diff_col add_ohlc_diff)

/-- Linear interpolation along a sorted value list at fractional
position `h`: peels off one element per whole unit of `h` and then
interpolates between the two neighbouring values.  For `0 ≤ h ≤ n - 1`
this computes exactly the pandas formula `s[i] + (h - i) * (s[i+1] - s[i])`
with `i = floor h`, one peeled element per unit of `h`. -/
def interpWalk : List ℚ → ℚ → ℚ
  | [], _ => 0
  | [x], _ => x
  | x :: y :: t, h => if h < 1 then x + h * (y - x) else interpWalk (y :: t) (h - 1)

/-- Quantile of a series at level `q`, skipping NaN, with the linear
interpolation pandas uses on the sorted values at position
`h = q * (n - 1)`.  The quantile of an empty series is NaN. -/
def quantile (xs : List Value) (q : ℚ) : Value :=
  match List.insertionSort (fun a b => a ≤ b) (xs.filterMap id) with
  | [] => none
  | s@(_ :: _) => some (interpWalk s (q * ((s.length : ℚ) - 1)))

/-- Elementwise mask `series < threshold` (false on NaN, also when the
threshold itself is NaN). -/
def maskLt (xs : List Value) (q : Value) : List Bool := xs.map (fun v => vlt v q)

/-- Elementwise mask `series > threshold`. -/
def maskGt (xs : List Value) (q : Value) : List Bool := xs.map (fun v => vlt q v)

/-- Conjunction of two masks, the `&` of two boolean series. -/
def maskAnd (a b : List Bool) : List Bool := List.zipWith (fun x y => x && y) a b

/-- Overwriting range assignment `df.loc[mask, lbl] = v`: rows where the
mask holds receive `v`; other rows keep their previous label, or NaN when
the assignment has to create the column. -/
def locSet (df : DF) (mask : List Bool) (lbl : String) (v : ℚ) : DF :=
  let old := if hasCol df lbl then getCol df lbl else mask.map (fun _ => none)
  setCol df lbl (List.zipWith (fun b o => if b then some v else o) mask old)

/-- Procs.proc_add_direction: quantile-threshold labeling of the
percentage-change column, translated assignment by assignment.  Returns
the table together with the updated categorical and continuous lists. -/
def proc_add_direction (df0 : DF) (column_name : String)
    (cat_vars cont_vars : List String) (noise_threshold : ℚ) :
    DF × List String × List String :=
  let name := "-direction"
  let target := column_name ++ "-pct"
  let dfc :=
    if hasCol df0 target then (df0, cont_vars)
    else proc_add_percent_change df0 column_name cont_vars
  let df := dfc.1
  let cont1 := dfc.2
  let lowest_ten_quantile := quantile (getCol df target) (10 / 100)
  let bottom_quantile := quantile (getCol df target) (25 / 100)
  let top_quantile := quantile (getCol df target) (75 / 100)
  let top_fifteen_quantile := quantile (getCol df target) (85 / 100)
  let top_five_quantile := quantile (getCol df target) (95 / 100)
  let min_positive_pct :=
    quantile ((getCol df target).filter (fun v => vlt (some 0) v)) noise_threshold
  let min_negative_pct :=
    quantile ((getCol df target).filter (fun v => vlt v (some 0))) (1 - noise_threshold)
  let lbl := column_name ++ name
  let df1 := locSet df (maskLt (getCol df target) lowest_ten_quantile) lbl (-7)
  let df2 := locSet df1 (maskAnd (maskLt (getCol df1 target) bottom_quantile)
    (maskGt (getCol df1 target) lowest_ten_quantile)) lbl (-3)
  let df3 := locSet df2 (maskAnd (maskLt (getCol df2 target) min_negative_pct)
    (maskGt (getCol df2 target) bottom_quantile)) lbl (-1)
  let df4 := locSet df3 (maskAnd (maskGt (getCol df3 target) min_negative_pct)
    (maskLt (getCol df3 target) min_positive_pct)) lbl 0
  let df5 := locSet df4 (maskAnd (maskGt (getCol df4 target) min_positive_pct)
    (maskLt (getCol df4 target) top_quantile)) lbl 1
  let df6 := locSet df5 (maskAnd (maskGt (getCol df5 target) top_quantile)
    (maskLt (getCol df5 target) top_fifteen_quantile)) lbl 3
  let df7 := locSet df6 (maskAnd (maskGt (getCol df6 target) top_fifteen_quantile)
    (maskLt (getCol df6 target) top_five_quantile)) lbl 5
  let df8 := locSet df7 (maskGt (getCol df7 target) top_five_quantile) lbl 7
  (df8, cat_vars ++ [lbl], cont1)

/-- Minimum of a series, skipping NaN (NaN for an empty series). -/
def colMin (xs : List Value) : Value := (xs.filterMap id).min?

/-- Maximum of a series, skipping NaN (NaN for an empty series). -/
def colMax (xs : List Value) : Value := (xs.filterMap id).max?

/-- One cell of the min-max scaling `(x - mn) / (mx - mn) * m`.  When the
column is constant the pandas expression is 0 / 0, i.e. NaN. -/
def normCell (mn mx : Value) (m : ℚ) (v : Value) : Value :=
  match v, mn, mx with
  | some x, some a, some b => if b = a then none else some ((x - a) / (b - a) * m)
  | _, _, _ => none

/-- Min-max scaling of one column against its own minimum and maximum. -/
def normColumn (xs : List Value) (m : ℚ) : List Value :=
  xs.map (normCell (colMin xs) (colMax xs) m)

/-- Procs.proc_min_max_normalize: fills NaN with zero, then scales every
column (or every non-excluded column, re-assembling the excluded columns
in front of the scaled ones, as `pd.concat([excluded, tmp], axis=1)`
does). -/
def proc_min_max_normalize (df0 : DF) (max_scale : ℚ) (all_col : Bool)
    (exclude_col : List String) : DF :=
  let df := proc_fill_nan df0
  if all_col then df.map (fun c => (c.1, normColumn c.2 max_scale))
  else
    let excluded := exclude_col.filterMap (fun n => df.find? (fun c => c.1 == n))
    let tmp := df.filter (fun c => !(exclude_col.contains c.1))
    let tmp := tmp.map (fun c => (c.1, normColumn c.2 max_scale))
    excluded ++ tmp

/-! Basic lemmas about the column store. -/

theorem getCol_setCol_self (df : DF) (n : String) (xs : List Value) :
    getCol (setCol df n xs) n = xs := by
  induction df with
  | nil => simp [setCol, getCol]
  | cons c rest ih =>
    by_cases h : c.1 = n
    · simp [setCol, getCol, h]
    · simp [setCol, getCol, h, ih]

theorem getCol_setCol_ne (df : DF) (n m : String) (xs : List Value)
    (h : m ≠ n) : getCol (setCol df n xs) m = getCol df m := by
  have h2 : n ≠ m := h.symm
  induction df with
  | nil => simp [setCol, getCol, h2]
  | cons c rest ih =>
    by_cases hc : c.1 = n
    · simp [setCol, getCol, hc, h2]
    · by_cases hm : c.1 = m
      · simp [setCol, getCol, hc, hm, h]
      · simp [setCol, getCol, hc, hm, ih]

theorem hasCol_setCol_self (df : DF) (n : String) (xs : List Value) :
    hasCol (setCol df n xs) n = true := by
  induction df with
  | nil => simp [setCol, hasCol]
  | cons c rest ih =>
    by_cases h : c.1 = n
    · simp [setCol, hasCol, h]
    · simp [setCol, hasCol, h, ih]

theorem hasCol_setCol_ne (df : DF) (n m : String) (xs : List Value)
    (h : m ≠ n) : hasCol (setCol df n xs) m = hasCol df m := by
  have h2 : n ≠ m := h.symm
  induction df with
  | nil => simp [setCol, hasCol, h2]
  | cons c rest ih =>
    by_cases hc : c.1 = n
    · simp [setCol, hasCol, hc, h2]
    · simp [setCol, hasCol, hc, ih]

theorem hasCol_of_getCol_ne_nil (df : DF) (n : String)
    (h : getCol df n ≠ []) : hasCol df n = true := by
  induction df with
  | nil => simp [getCol] at h
  | cons c rest ih =>
    by_cases hc : c.1 = n
    · simp [hasCol, hc]
    · simp only [getCol, hc, if_false, if_neg hc] at h
      simp [hasCol, hc, ih h]

theorem getCol_of_not_hasCol (df : DF) (n : String)
    (h : hasCol df n = false) : getCol df n = [] := by
  induction df with
  | nil => simp [getCol]
  | cons c rest ih =>
    simp [hasCol] at h
    simp [getCol, h.1, ih h.2]

theorem getCol_append (a b : DF) (n : String) :
    getCol (a ++ b) n = if hasCol a n then getCol a n else getCol b n := by
  induction a with
  | nil => simp [getCol, hasCol]
  | cons c rest ih =>
    by_cases hc : c.1 = n
    · simp [getCol, hasCol, hc]
    · simp [getCol, hasCol, hc, ih]

theorem getCol_mapSnd (df : DF) (g : List Value → List Value) (n : String) :
    getCol (df.map (fun c => (c.1, g c.2))) n =
      if hasCol df n then g (getCol df n) else [] := by
  induction df with
  | nil => simp [getCol, hasCol]
  | cons c rest ih =>
    by_cases hc : c.1 = n
    · simp [getCol, hasCol, hc]
    · simp [getCol, hasCol, hc, ih]

theorem hasCol_mapSnd (df : DF) (g : List Value → List Value) (n : String) :
    hasCol (df.map (fun c => (c.1, g c.2))) n = hasCol df n := by
  induction df with
  | nil => simp [hasCol]
  | cons c rest ih => simp [hasCol, ih]

theorem getCol_rename_ne (df : DF) (old nw m : String)
    (h1 : m ≠ old) (h2 : m ≠ nw) :
    getCol (__rename_column df old nw) m = getCol df m := by
  induction df with
  | nil => rfl
  | cons c rest ih =>
    by_cases hc : c.1 = old
    · have hcm : ¬c.1 = m := fun hh => h1 (hh.symm.trans hc)
      simp [__rename_column, getCol, hc, h2.symm, h1.symm, hcm, ih]
    · by_cases hm : c.1 = m
      · simp [__rename_column, getCol, hc, hm, h1, h2]
      · simp [__rename_column, getCol, hc, hm, ih]

theorem getCol_rename_new (df : DF) (old nw : String)
    (h : hasCol df nw = false) :
    getCol (__rename_column df old nw) nw = getCol df old := by
  induction df with
  | nil => rfl
  | cons c rest ih =>
    simp [hasCol] at h
    by_cases hc : c.1 = old
    · simp [__rename_column, getCol, hc]
    · simp [__rename_column, getCol, hc, h.1, ih h.2]

theorem hasCol_rename_ne (df : DF) (old nw m : String)
    (h1 : m ≠ old) (h2 : m ≠ nw) :
    hasCol (__rename_column df old nw) m = hasCol df m := by
  induction df with
  | nil => rfl
  | cons c rest ih =>
    by_cases hc : c.1 = old
    · have hcm : ¬c.1 = m := fun hh => h1 (hh.symm.trans hc)
      simp [__rename_column, hasCol, hc, h2.symm, h1.symm, hcm, ih]
    · simp [__rename_column, hasCol, hc, ih]

theorem getCol_filterOut (df : DF) (key m : String) (h : m ≠ key) :
    getCol (df.filter (fun c => !(c.1 == key))) m = getCol df m := by
  induction df with
  | nil => simp [getCol]
  | cons c rest ih =>
    by_cases hc : c.1 = key
    · have hcm : ¬c.1 = m := fun hh => h (hh.symm.trans hc)
      simp [List.filter_cons, hc, getCol, hcm, h.symm, ih]
    · by_cases hm : c.1 = m
      · simp [List.filter_cons, hc, getCol, hm, h]
      · simp [List.filter_cons, hc, getCol, hm, ih]

theorem zipWith_get?_of_some {α β γ : Type} (f : α → β → γ) (a : List α)
    (b : List β) (i : ℕ) (x : α) (y : β)
    (ha : a.get? i = some x) (hb : b.get? i = some y) :
    (List.zipWith f a b).get? i = some (f x y) := by
  induction a generalizing b i with
  | nil => simp at ha
  | cons u ut ih =>
    cases b with
    | nil => simp at hb
    | cons v vt =>
      cases i with
      | zero => simp at ha hb; simp [ha, hb]
      | succ j => simpa using ih vt j (by simpa using ha) (by simpa using hb)

theorem padFillAux_length (a : Value) (xs : List Value) :
    (padFillAux a xs).length = xs.length := by
  induction xs generalizing a with
  | nil => rfl
  | cons v t ih =>
    cases v with
    | none => simp [padFillAux, ih]
    | some x => simp [padFillAux, ih]

theorem padFillAux_get?_some (a : Value) (xs : List Value) (j : ℕ) (p : ℚ)
    (h : xs.get? j = some (some p)) :
    (padFillAux a xs).get? j = some (some p) := by
  induction xs generalizing a j with
  | nil => simp at h
  | cons v t ih =>
    cases j with
    | zero =>
      simp at h
      cases v with
      | none => simp at h
      | some x => simp at h; simp [padFillAux, h]
    | succ k =>
      simp at h
      cases v with
      | none => simpa [padFillAux] using ih a k (by simpa using h)
      | some x => simpa [padFillAux] using ih (some x) k (by simpa using h)

theorem pctChange_get?_zero (xs : List Value) (h : xs ≠ []) :
    (pctChange xs).get? 0 = some none := by
  cases xs with
  | nil => exact absurd rfl h
  | cons v t =>
    cases v with
    | none => simp [pctChange, padFill, padFillAux, List.zipWith, pcVal]
    | some x => simp [pctChange, padFill, padFillAux, List.zipWith, pcVal]

theorem pctChange_get?_succ (xs : List Value) (j : ℕ) (p v : ℚ)
    (hp : xs.get? j = some (some p)) (hv : xs.get? (j + 1) = some (some v))
    (hnz : p ≠ 0) :
    (pctChange xs).get? (j + 1) = some (some (v / p - 1)) := by
  have hfp : (padFill xs).get? j = some (some p) := padFillAux_get?_some _ _ _ _ hp
  have hfv : (padFill xs).get? (j + 1) = some (some v) := padFillAux_get?_some _ _ _ _ hv
  have hcons : ((none :: padFill xs) : List Value).get? (j + 1) = some (some p) := by
    simpa using hfp
  have hz := zipWith_get?_of_some pcVal (none :: padFill xs) (padFill xs) (j + 1)
    (some p) (some v) hcons hfv
  rw [pctChange]
  simp only [hz, pcVal]
  simp [hnz]

/-! Lemmas about locSet, the `df.loc[mask, lbl] = v` assignment. -/

theorem getCol_locSet_ne (df : DF) (mask : List Bool) (lbl m : String)
    (v : ℚ) (h : m ≠ lbl) : getCol (locSet df mask lbl v) m = getCol df m :=
  getCol_setCol_ne df lbl m _ h

theorem hasCol_locSet_self (df : DF) (mask : List Bool) (lbl : String)
    (v : ℚ) : hasCol (locSet df mask lbl v) lbl = true :=
  hasCol_setCol_self df lbl _

theorem getCol_locSet_self (df : DF) (mask : List Bool) (lbl : String)
    (v : ℚ) :
    getCol (locSet df mask lbl v) lbl =
      List.zipWith (fun b o => if b then some v else o) mask
        (if hasCol df lbl then getCol df lbl else mask.map (fun _ => none)) :=
  getCol_setCol_self df lbl _

/-! Lemmas about the inner join. -/

theorem mergeIdxAux_head (i : ℕ) (d : ℚ) (kl kr : List Value) :
    (mergeIdxAux i (some d :: kl) (some d :: kr)).get? 0 = some (i, 0) := by
  simp [mergeIdxAux, keyMatches]

theorem getCol_merge_left (l r : DF) (key m : String)
    (h : hasCol l m = true) :
    getCol (merge l r key) m =
      takeIdx (getCol l m)
        ((mergeIdx (getCol l key) (getCol r key)).map Prod.fst) := by
  have hmap : ∀ js : List ℕ,
      getCol (l.map (fun c => (c.1, takeIdx c.2 js))) m =
        if hasCol l m then takeIdx (getCol l m) js else [] :=
    fun js => getCol_mapSnd l (fun xs => takeIdx xs js) m
  have hhas : ∀ js : List ℕ,
      hasCol (l.map (fun c => (c.1, takeIdx c.2 js))) m = hasCol l m :=
    fun js => hasCol_mapSnd l (fun xs => takeIdx xs js) m
  rw [merge, getCol_append, hhas, h, hmap, h]
  simp

theorem hasCol_filterOut (df : DF) (key m : String) (h : m ≠ key) :
    hasCol (df.filter (fun c => !(c.1 == key))) m = hasCol df m := by
  induction df with
  | nil => simp [hasCol]
  | cons c rest ih =>
    by_cases hc : c.1 = key
    · have hcm : ¬c.1 = m := fun hh => h (hh.symm.trans hc)
      simp [List.filter_cons, hc, hasCol, hcm, h.symm, ih]
    · by_cases hm : c.1 = m
      · simp [List.filter_cons, hc, hasCol, hm, h]
      · simp [List.filter_cons, hc, hasCol, hm, ih]

theorem getCol_merge_right (l r : DF) (key m : String)
    (hL : hasCol l m = false) (hR : hasCol r m = true) (hm : m ≠ key) :
    getCol (merge l r key) m =
      takeIdx (getCol r m)
        ((mergeIdx (getCol l key) (getCol r key)).map Prod.snd) := by
  have hmap : ∀ js : List ℕ,
      getCol ((r.filter (fun c => !(c.1 == key))).map
          (fun c => (c.1, takeIdx c.2 js))) m =
        if hasCol (r.filter (fun c => !(c.1 == key))) m then
          takeIdx (getCol (r.filter (fun c => !(c.1 == key))) m) js
        else [] :=
    fun js => getCol_mapSnd _ (fun xs => takeIdx xs js) m
  have hhas : ∀ js : List ℕ,
      hasCol (l.map (fun c => (c.1, takeIdx c.2 js))) m = hasCol l m :=
    fun js => hasCol_mapSnd l (fun xs => takeIdx xs js) m
  have hfil : getCol (r.filter (fun c => !(c.1 == key))) m = getCol r m :=
    getCol_filterOut r key m hm
  have hfh : hasCol (r.filter (fun c => !(c.1 == key))) m = true :=
    (hasCol_filterOut r key m hm).trans hR
  rw [merge, getCol_append, hhas, hL, hmap, hfh, hfil]
  simp

theorem takeIdx_get? (xs : List Value) (is : List ℕ) (i j : ℕ)
    (h : is.get? i = some j) :
    (takeIdx xs is).get? i = some ((xs.get? j).getD none) := by
  rw [takeIdx, List.get?_map, h]
  rfl

/-! Welford-accumulator lemmas. -/

theorem includeVal_const (k : ℕ) (c : ℚ) :
    OnlineVariance.includeVal ⟨k, c, 0⟩ c = ⟨k + 1, c, 0⟩ := by
  simp [OnlineVariance.includeVal]

theorem foldl_includeVal_const (m k : ℕ) (c : ℚ) :
    List.foldl OnlineVariance.includeVal ⟨k, c, 0⟩ (List.replicate m c) =
      ⟨k + m, c, 0⟩ := by
  induction m generalizing k with
  | zero => rfl
  | succ j ih =>
    rw [List.replicate_succ, List.foldl_cons, includeVal_const, ih]
    congr 1
    omega

/-- C2: the bulk-update helper is claimed to append every merged column
name except a literal "Date"; in the code the append loop sits in the
else branch, so whenever "Date" is among the names nothing at all is
appended (first conjunct), while the remaining-names append only happens
when "Date" is absent (second conjunct).  At the failing input (an empty
metadata list and the Bollinger column names including "Date") the code
returns the metadata list unchanged instead of appending the three band
names. -/
theorem C2_update_meta_data_bug :
    __update_meta_data [] ["Date", "BB_UP", "BB_MID", "BB_LOW"] = [] ∧
    __update_meta_data [] ["BB_UP", "BB_MID", "BB_LOW"] =
      ["BB_UP", "BB_MID", "BB_LOW"] ∧
    (∀ (df : DF) (cont : List String),
      (proc_add_bband df cont
        [("date", []), ("Real Upper Band", []), ("Real Middle Band", []),
         ("Real Lower Band", [])] "Date" false "Close" false).2 = cont) := by
  refine ⟨rfl, rfl, fun df cont => ?_⟩
  rfl

/-- C4: every embedded transform only appends to the metadata lists: the
returned list is always the input list followed by the new names, so no
existing entry is removed, replaced or reordered, and invoking the same
transform twice appends the same name twice (duplicate entries). -/
theorem C4_metadata_append_only :
    (∀ (df : DF) (c : String) (cont : List String),
      (proc_add_percent_change df c cont).2 = cont ++ [c ++ "-pct"]) ∧
    (∀ (df : DF) (c : String) (cont : List String),
      (proc_add_percent_change (proc_add_percent_change df c cont).1 c
        (proc_add_percent_change df c cont).2).2 =
        cont ++ [c ++ "-pct", c ++ "-pct"]) ∧
    (∀ (df : DF) (cont : List String) (dcol : String),
      (proc_add_ohlc_avg df cont false dcol false).2 = cont ++ ["ohlc_avg"]) ∧
    (∀ (df : DF) (cont : List String) (dcol : String),
      (proc_add_ohlc_avg df cont true dcol false).2 =
        cont ++ ["ohlc_avg", dcol ++ "_" ++ "ohlc_avg" ++ "_Diff"]) ∧
    (∀ (df : DF) (cont : List String) (dcol : String),
      (proc_add_ohlc_avg df cont false dcol true).2 =
        cont ++ ["ohlc_avg", "Open_ohlc_avg_Diff", "High_ohlc_avg_Diff",
          "Low_ohlc_avg_Diff", "Close_ohlc_avg_Diff"]) ∧
    (∀ (df : DF) (cont : List String) (dcol : String),
      (proc_add_ohlc_avg (proc_add_ohlc_avg df cont false dcol false).1
        (proc_add_ohlc_avg df cont false dcol false).2 false dcol false).2 =
        cont ++ ["ohlc_avg", "ohlc_avg"]) ∧
    (∀ (df : DF) (c : String) (cat cont : List String) (noise : ℚ),
      (proc_add_direction df c cat cont noise).2.1 =
        cat ++ [c ++ "-direction"]) ∧
    (∀ (df : DF) (c : String) (cat cont : List String) (noise : ℚ),
      (proc_add_direction df c cat cont noise).2.2 =
        cont ++ (if hasCol df (c ++ "-pct") then [] else [c ++ "-pct"])) ∧
    (∀ (df : DF) (cont : List String) (adx : DF) (change : Bool),
      (proc_add_adx df cont adx change).2 =
        cont ++ (if change then ["ADX", "ADX_CHANGE"] else ["ADX"])) ∧
    (∀ (cont ns : List String),
      __update_meta_data cont ns = cont ++ (if "Date" ∈ ns then [] else ns)) := by
  refine ⟨?_, ?_, ?_, ?_, ?_, ?_, ?_, ?_, ?_, ?_⟩
  · exact fun df c cont => rfl
  · intro df c cont
    simp [proc_add_percent_change]
  · exact fun df cont dcol => rfl
  · intro df cont dcol
    simp [proc_add_ohlc_avg]
  · intro df cont dcol
    simp [proc_add_ohlc_avg]
  · intro df cont dcol
    simp [proc_add_ohlc_avg]
  · exact fun df c cat cont noise => rfl
  · intro df c cat cont noise
    by_cases h : hasCol df (c ++ "-pct") <;>
      simp [proc_add_direction, proc_add_percent_change, h]
  · intro df cont adx change
    cases change <;> simp [proc_add_adx]
  · intro cont ns
    by_cases h : "Date" ∈ ns <;> simp [__update_meta_data, h]

/-- C6: the Welford estimator (modelled from the spec, its source file
being absent from the sources) reports variance 0 for fewer than two
samples without error, variance 0 after any number of inclusions of one
constant value, and the sample variance 5/2 for the sequence
[1, 2, 3, 4, 5]. -/
theorem C6_online_variance :
    (∀ xs : List ℚ, xs.length < 2 → (OnlineVariance.ofList xs).variance = 0) ∧
    (∀ (n : ℕ) (c : ℚ),
      (OnlineVariance.ofList (List.replicate n c)).variance = 0) ∧
    (OnlineVariance.ofList [1, 2, 3, 4, 5]).variance = 5 / 2 := by
  refine ⟨fun xs h => ?_, fun n c => ?_, ?_⟩
  · match xs with
    | [] => rfl
    | [x] =>
      simp [OnlineVariance.ofList, OnlineVariance.init, OnlineVariance.includeVal,
        OnlineVariance.variance]
    | a :: b :: t =>
      exfalso
      simp only [List.length_cons] at h
      omega
  · cases n with
    | zero => rfl
    | succ m =>
      have h1 : OnlineVariance.includeVal OnlineVariance.init c = ⟨1, c, 0⟩ := by
        simp [OnlineVariance.includeVal, OnlineVariance.init]
      rw [OnlineVariance.ofList, List.replicate_succ, List.foldl_cons, h1,
        foldl_includeVal_const]
      by_cases h : 1 < 1 + m <;> simp [OnlineVariance.variance, h]
  · norm_num [OnlineVariance.ofList, OnlineVariance.init,
      OnlineVariance.includeVal, OnlineVariance.variance, List.foldl]

/-- Witness for C6: the first conjunct applied to the one-element sample
[3], whose length is smaller than two and whose reported variance is 0. -/
theorem C6_online_variance_witness :
    ([(3 : ℚ)].length < 2) ∧ (OnlineVariance.ofList [(3 : ℚ)]).variance = 0 :=
  ⟨by norm_num, C6_online_variance.1 [(3 : ℚ)] (by norm_num)⟩

/-- C10: in every transform that fetches external indicator data the
fetch is the first effectful step: when the fetch fails, the failure
propagates and no updated table or metadata is produced, so the caller's
state is exactly as before the call. -/
theorem C10_fetch_failure_leaves_state :
    ∀ (e : Unit) (df : DF) (cont : List String) (change : Bool)
      (merge_on dcol mov : String) (tp : ℕ) (d1 d2 : Bool),
      proc_add_adxE (Except.error e) df cont change = Except.error e ∧
      proc_add_obvE (Except.error e) df cont change = Except.error e ∧
      proc_add_momE (Except.error e) df cont change = Except.error e ∧
      proc_add_rsiE (Except.error e) df cont change = Except.error e ∧
      proc_add_bbandE (Except.error e) df cont merge_on d1 dcol d2 =
        Except.error e ∧
      proc_add_macdE (Except.error e) df cont = Except.error e ∧
      proc_add_mov_avgE (Except.error e) df cont mov tp merge_on d1 dcol d2 =
        Except.error e := by
  intro e df cont change merge_on dcol mov tp d1 d2
  exact ⟨rfl, rfl, rfl, rfl, rfl, rfl, rfl⟩

theorem get?_zero_cons {α : Type _} (l : List α) (a : α)
    (h : l.get? 0 = some a) : ∃ t, l = a :: t := by
  cases l with
  | nil => simp at h
  | cons x t =>
    simp at h
    exact ⟨t, by rw [h]⟩

theorem setCol_pct_first_nan (m : DF) (iname cname : String)
    (h : getCol m iname ≠ []) :
    (getCol (setCol m cname (pctChange (getCol m iname))) cname).get? 0 =
      some none := by
  rw [getCol_setCol_self]
  exact pctChange_get?_zero _ h

/-- C3: in proc_add_adx, proc_add_obv, proc_add_mom, proc_add_rsi and
proc_add_mov_avg the `fillna(0)` result is discarded, so the returned
table still carries the NaN that `pct_change` produces in the first row
of the change column: whenever the change column's source column is
nonempty (for the moving average: whenever the first dates of both
tables match, the fetched table is well formed and its moving-average
column is nonempty), the first entry of the returned change column is
NaN. -/
theorem C3_discarded_fill_keeps_nan :
    (∀ (df : DF) (cont : List String) (adx : DF),
      getCol (proc_add_adx df cont adx true).1 "ADX" ≠ [] →
      (getCol (proc_add_adx df cont adx true).1 "ADX_CHANGE").get? 0 =
        some none) ∧
    (∀ (df : DF) (cont : List String) (obv : DF),
      getCol (proc_add_obv df cont obv true).1 "OBV" ≠ [] →
      (getCol (proc_add_obv df cont obv true).1 "OBV_CHANGE").get? 0 =
        some none) ∧
    (∀ (df : DF) (cont : List String) (mom : DF),
      getCol (proc_add_mom df cont mom true).1 "MOM" ≠ [] →
      (getCol (proc_add_mom df cont mom true).1 "MOM-pct").get? 0 =
        some none) ∧
    (∀ (df : DF) (cont : List String) (rsi : DF),
      getCol (proc_add_rsi df cont rsi true).1 "RSI" ≠ [] →
      (getCol (proc_add_rsi df cont rsi true).1 "RSI_CHANGE").get? 0 =
        some none) ∧
    (∀ (df ma0 : DF) (cont : List String) (mov : String) (tp : ℕ)
      (dcol : String) (d : ℚ),
      hasCol ma0 "Date" = false →
      hasCol ma0 (strUpper mov ++ "_" ++ toString tp) = false →
      (strUpper mov) ≠ "date" →
      (strUpper mov) ≠ "Date" →
      (strUpper mov) ++ "_" ++ toString tp ≠ "date" →
      (strUpper mov) ++ "_" ++ toString tp ≠ "Date" →
      (strUpper mov) ++ "_" ++ toString tp ++ "_CHANGE" ≠ "Date" →
      hasCol df (strUpper mov ++ "_" ++ toString tp ++ "_CHANGE") = false →
      (getCol df "Date").get? 0 = some (some d) →
      (getCol ma0 "date").get? 0 = some (some d) →
      getCol ma0 (strUpper mov) ≠ [] →
      (getCol (proc_add_mov_avg df cont ma0 mov tp "Date" false dcol false).1
        (strUpper mov ++ "_" ++ toString tp ++ "_CHANGE")).get? 0 = some none) := by
  refine ⟨?_, ?_, ?_, ?_, ?_⟩
  · intro df cont adx h
    have hres : (proc_add_adx df cont adx true).1 =
        setCol (merge df (convert_date (__rename_column adx "date" "Date")
          "Date") "Date") "ADX_CHANGE"
          (pctChange (getCol (merge df (convert_date
            (__rename_column adx "date" "Date") "Date") "Date") "ADX")) := rfl
    rw [hres] at h ⊢
    rw [getCol_setCol_ne _ _ _ _ (by decide)] at h
    exact setCol_pct_first_nan _ _ _ h
  · intro df cont obv h
    have hres : (proc_add_obv df cont obv true).1 =
        setCol (merge df (convert_date (__rename_column obv "date" "Date")
          "Date") "Date") "OBV_CHANGE"
          (pctChange (getCol (merge df (convert_date
            (__rename_column obv "date" "Date") "Date") "Date") "OBV")) := rfl
    rw [hres] at h ⊢
    rw [getCol_setCol_ne _ _ _ _ (by decide)] at h
    exact setCol_pct_first_nan _ _ _ h
  · intro df cont mom h
    have hres : (proc_add_mom df cont mom true).1 =
        setCol (merge df (convert_date (__rename_column mom "date" "Date")
          "Date") "Date") "MOM-pct"
          (pctChange (getCol (merge df (convert_date
            (__rename_column mom "date" "Date") "Date") "Date") "MOM")) := rfl
    rw [hres] at h ⊢
    rw [getCol_setCol_ne _ _ _ _ (by decide)] at h
    exact setCol_pct_first_nan _ _ _ h
  · intro df cont rsi h
    have hres : (proc_add_rsi df cont rsi true).1 =
        setCol (merge df (convert_date (__rename_column rsi "date" "Date")
          "Date") "Date") "RSI_CHANGE"
          (pctChange (getCol (merge df (convert_date
            (__rename_column rsi "date" "Date") "Date") "Date") "RSI")) := rfl
    rw [hres] at h ⊢
    rw [getCol_setCol_ne _ _ _ _ (by decide)] at h
    exact setCol_pct_first_nan _ _ _ h
  · intro df ma0 cont mov tp dcol d h1 h2 h3 h4 h5 h6 h7 h8 h9 h10 h11
    set colName := (strUpper mov) ++ "_" ++ toString tp with hcol
    set chg := colName ++ "_CHANGE" with hchg
    set ma1 := convert_date ma0 "date" with hma1
    set ma1r := __rename_column ma1 "date" "Date" with hma1r
    set ma2 := __rename_column ma1r (strUpper mov) colName with hma2
    set ma3 := setCol ma2 chg (pctChange (getCol ma2 colName)) with hma3
    have hres : (proc_add_mov_avg df cont ma0 mov tp "Date" false dcol false).1 =
        merge df ma3 "Date" := rfl
    have hA1 : getCol ma1 "date" = getCol ma0 "date" := getCol_setCol_self _ _ _
    have hA2 : hasCol ma1 "Date" = false := by
      rw [hma1, convert_date, hasCol_setCol_ne _ _ _ _ (by decide)]
      exact h1
    have hA3 : getCol ma1r "Date" = getCol ma0 "date" := by
      rw [hma1r, getCol_rename_new _ _ _ hA2, hA1]
    have hA4 : getCol ma2 "Date" = getCol ma0 "date" := by
      rw [hma2, getCol_rename_ne _ _ _ _ (Ne.symm h4) (Ne.symm h6), hA3]
    have hA5 : getCol ma3 "Date" = getCol ma0 "date" := by
      rw [hma3, getCol_setCol_ne _ _ _ _ (Ne.symm h7), hA4]
    have hB1 : hasCol ma1 colName = false := by
      rw [hma1, convert_date, hasCol_setCol_ne _ _ _ _ h5]
      exact h2
    have hB2 : hasCol ma1r colName = false := by
      rw [hma1r, hasCol_rename_ne _ _ _ _ h5 h6]
      exact hB1
    have hB3 : getCol ma2 colName = getCol ma0 (strUpper mov) := by
      rw [hma2, getCol_rename_new _ _ _ hB2, hma1r,
        getCol_rename_ne _ _ _ _ h3 h4, hma1, convert_date,
        getCol_setCol_ne _ _ _ _ h3]
    have hB4 : getCol ma3 chg = pctChange (getCol ma0 (strUpper mov)) := by
      rw [hma3, getCol_setCol_self, hB3]
    have hC1 : hasCol ma3 chg = true := hasCol_setCol_self _ _ _
    have hC2 : getCol (merge df ma3 "Date") chg =
        takeIdx (getCol ma3 chg)
          ((mergeIdx (getCol df "Date") (getCol ma3 "Date")).map Prod.snd) :=
      getCol_merge_right _ _ _ _ h8 hC1 h7
    rw [hres, hC2]
    obtain ⟨t1, ht1⟩ := get?_zero_cons _ _ h9
    have h10m : (getCol ma3 "Date").get? 0 = some (some d) := by
      rw [hA5]; exact h10
    obtain ⟨t2, ht2⟩ := get?_zero_cons _ _ h10m
    rw [ht1, ht2]
    have hidx : ((mergeIdx (some d :: t1) (some d :: t2)).map Prod.snd).get? 0 =
        some 0 := by
      rw [List.get?_map, mergeIdx, mergeIdxAux_head]
      rfl
    rw [takeIdx_get? _ _ _ _ hidx, hB4,
      pctChange_get?_zero (getCol ma0 (strUpper mov)) h11]
    rfl

/-- Concrete two-row price table for the C3 witness. -/
def c3df : DF := [("Date", [some 1, some 2]), ("Close", [some 5, some 6])]

/-- Concrete fetched ADX table for the C3 witness. -/
def c3adx : DF := [("date", [some 1, some 2]), ("ADX", [some 3, some 4])]

/-- Concrete fetched OBV table for the C3 witness. -/
def c3obv : DF := [("date", [some 1, some 2]), ("OBV", [some 3, some 4])]

/-- Concrete fetched MOM table for the C3 witness. -/
def c3mom : DF := [("date", [some 1, some 2]), ("MOM", [some 3, some 4])]

/-- Concrete fetched RSI table for the C3 witness. -/
def c3rsi : DF := [("date", [some 1, some 2]), ("RSI", [some 3, some 4])]

/-- Concrete fetched SMA table for the C3 witness. -/
def c3ma : DF := [("date", [some 1, some 2]), ("SMA", [some 3, some 4])]

/-- Witness for C3: on two-row tables sharing the dates 1 and 2, each of
the five transforms returns a table whose change column starts with NaN
even though the source called fillna(0) on it. -/
theorem C3_discarded_fill_keeps_nan_witness :
    (getCol (proc_add_adx c3df [] c3adx true).1 "ADX_CHANGE").get? 0 =
      some none ∧
    (getCol (proc_add_obv c3df [] c3obv true).1 "OBV_CHANGE").get? 0 =
      some none ∧
    (getCol (proc_add_mom c3df [] c3mom true).1 "MOM-pct").get? 0 =
      some none ∧
    (getCol (proc_add_rsi c3df [] c3rsi true).1 "RSI_CHANGE").get? 0 =
      some none ∧
    (getCol (proc_add_mov_avg c3df [] c3ma "sma" 20 "Date" false "Close"
      false).1 ((strUpper "sma") ++ "_" ++ toString (20 : ℕ) ++
        "_CHANGE")).get? 0 = some none := by
  refine ⟨?_, ?_, ?_, ?_, ?_⟩
  · exact C3_discarded_fill_keeps_nan.1 c3df [] c3adx (by
      simp +decide [c3df, c3adx, proc_add_adx, merge, mergeIdx, mergeIdxAux,
        keyMatches, convert_date, __rename_column, setCol, getCol, hasCol,
        takeIdx, List.filter, pctChange, padFill, padFillAux, pcVal])
  · exact C3_discarded_fill_keeps_nan.2.1 c3df [] c3obv (by
      simp +decide [c3df, c3obv, proc_add_obv, merge, mergeIdx, mergeIdxAux,
        keyMatches, convert_date, __rename_column, setCol, getCol, hasCol,
        takeIdx, List.filter, pctChange, padFill, padFillAux, pcVal])
  · exact C3_discarded_fill_keeps_nan.2.2.1 c3df [] c3mom (by
      simp +decide [c3df, c3mom, proc_add_mom, merge, mergeIdx, mergeIdxAux,
        keyMatches, convert_date, __rename_column, setCol, getCol, hasCol,
        takeIdx, List.filter, pctChange, padFill, padFillAux, pcVal])
  · exact C3_discarded_fill_keeps_nan.2.2.2.1 c3df [] c3rsi (by
      simp +decide [c3df, c3rsi, proc_add_rsi, merge, mergeIdx, mergeIdxAux,
        keyMatches, convert_date, __rename_column, setCol, getCol, hasCol,
        takeIdx, List.filter, pctChange, padFill, padFillAux, pcVal])
  · exact C3_discarded_fill_keeps_nan.2.2.2.2 c3df c3ma [] "sma" 20 "Close" 1
      (by decide) (by decide) (by decide) (by decide) (by decide) (by decide)
      (by decide) (by decide) rfl rfl (by decide)

/-- C7: the indicator transforms combine the price table with the
fetched indicator table by an inner join on the date key: for a price
table dated [d1, d2, d3] and an indicator table dated [d2, d3, d4] (all
distinct), the merged table returned by proc_add_adx has exactly the
date column [d2, d3]; the unmatched rows d1 and d4 are silently dropped,
no error is raised and no null-padded rows appear. -/
theorem C7_inner_join_drops_unmatched :
    ∀ (df adxData : DF) (cont : List String) (d1 d2 d3 d4 : ℚ),
      getCol df "Date" = [some d1, some d2, some d3] →
      getCol adxData "date" = [some d2, some d3, some d4] →
      hasCol adxData "Date" = false →
      d1 ≠ d2 → d1 ≠ d3 → d1 ≠ d4 → d2 ≠ d3 → d2 ≠ d4 → d3 ≠ d4 →
      getCol (proc_add_adx df cont adxData false).1 "Date" =
        [some d2, some d3] := by
  intro df adxData cont d1 d2 d3 d4 hdf hadx hnd h12 h13 h14 h23 h24 h34
  set adx1 := __rename_column adxData "date" "Date" with hadx1
  set adx2 := convert_date adx1 "Date" with hadx2
  have hres : (proc_add_adx df cont adxData false).1 = merge df adx2 "Date" := rfl
  have hdd : getCol adx2 "Date" = getCol adxData "date" := by
    rw [hadx2, convert_date, getCol_setCol_self, hadx1, getCol_rename_new _ _ _ hnd]
  have hhc : hasCol df "Date" = true := by
    apply hasCol_of_getCol_ne_nil
    rw [hdf]
    simp
  have hidx : mergeIdx ([some d1, some d2, some d3] : List Value)
      ([some d2, some d3, some d4] : List Value) = [(1, 0), (2, 1)] := by
    simp [mergeIdx, mergeIdxAux, keyMatches, h12, h13, h14, h23, h24, h34,
      h23.symm, h24.symm, h34.symm, h12.symm, h13.symm, h14.symm]
  rw [hres, getCol_merge_left _ _ _ _ hhc, hdf, hdd, hadx, hidx]
  simp [takeIdx]

/-- Witness for C7: with the concrete dates 1, 2, 3, 4 the merged table
keeps exactly the shared dates 2 and 3. -/
theorem C7_inner_join_drops_unmatched_witness :
    getCol (proc_add_adx
      [("Date", [some 1, some 2, some 3]), ("Close", [some 5, some 6, some 7])]
      [] [("date", [some 2, some 3, some 4]), ("ADX", [some 8, some 9, some 10])]
      false).1 "Date" = [some 2, some 3] :=
  C7_inner_join_drops_unmatched _ _ [] 1 2 3 4 rfl rfl (by decide)
    (by norm_num) (by norm_num) (by norm_num) (by norm_num) (by norm_num)
    (by norm_num)

theorem pct_ne_direction (c : String) : c ++ "-pct" ≠ c ++ "-direction" := by
  intro h
  have hl := congrArg String.length h
  simp only [String.length_append] at hl
  have h4 : ("-pct" : String).length = 4 := rfl
  have h10 : ("-direction" : String).length = 10 := rfl
  omega

/-- C8: when the `<column>-pct` precursor is absent, proc_add_direction
first invokes proc_add_percent_change, so the returned table contains
the pct column computed as value over previous value minus one with the
first row NaN, the pct name is appended to cont_vars, and no error is
raised. -/
theorem C8_direction_autoderives_pct :
    ∀ (df : DF) (c : String) (cat cont : List String) (noise : ℚ),
      hasCol df (c ++ "-pct") = false →
      (proc_add_direction df c cat cont noise).2.2 = cont ++ [c ++ "-pct"] ∧
      getCol (proc_add_direction df c cat cont noise).1 (c ++ "-pct") =
        pctChange (getCol df c) ∧
      (getCol df c ≠ [] →
        (getCol (proc_add_direction df c cat cont noise).1
          (c ++ "-pct")).get? 0 = some none) ∧
      (∀ (j : ℕ) (p v : ℚ),
        (getCol df c).get? j = some (some p) →
        (getCol df c).get? (j + 1) = some (some v) → p ≠ 0 →
        (getCol (proc_add_direction df c cat cont noise).1
          (c ++ "-pct")).get? (j + 1) = some (some (v / p - 1))) := by
  intro df c cat cont noise habs
  have hne : c ++ "-pct" ≠ c ++ "-direction" := pct_ne_direction c
  have hrw : ∀ (d : DF) (mask : List Bool) (v : ℚ),
      getCol (locSet d mask (c ++ "-direction") v) (c ++ "-pct") =
        getCol d (c ++ "-pct") :=
    fun d mask v => getCol_locSet_ne d mask _ _ v hne
  have hcol : getCol (proc_add_direction df c cat cont noise).1 (c ++ "-pct") =
      pctChange (getCol df c) := by
    simp only [proc_add_direction, habs, Bool.false_eq_true, if_false,
      proc_add_percent_change, hrw]
    exact getCol_setCol_self _ _ _
  refine ⟨?_, hcol, fun h => ?_, fun j p v hp hv hnz => ?_⟩
  · simp [proc_add_direction, proc_add_percent_change, habs]
  · rw [hcol]
    exact pctChange_get?_zero _ h
  · rw [hcol]
    exact pctChange_get?_succ _ j p v hp hv hnz

/-- Witness for C8: a table holding only a two-row Close column; the
derived Close-pct column is NaN in row 0 and equals 6 / 5 - 1 in row 1,
and the metadata list gains the name Close-pct. -/
theorem C8_direction_autoderives_pct_witness :
    (proc_add_direction [("Close", [some 5, some 6])] "Close" [] [] (7 / 100)).2.2 =
      ["Close" ++ "-pct"] ∧
    (getCol (proc_add_direction [("Close", [some 5, some 6])] "Close" [] []
      (7 / 100)).1 ("Close" ++ "-pct")).get? 0 = some none ∧
    (getCol (proc_add_direction [("Close", [some 5, some 6])] "Close" [] []
      (7 / 100)).1 ("Close" ++ "-pct")).get? 1 = some (some (6 / 5 - 1)) := by
  have h := C8_direction_autoderives_pct [("Close", [some 5, some 6])] "Close"
    [] [] (7 / 100) (by decide)
  refine ⟨h.1, h.2.2.1 (by decide), ?_⟩
  have h4 := h.2.2.2 0 5 6 rfl rfl (by norm_num)
  exact h4

theorem getCol_fill (df : DF) (n : String) :
    getCol (proc_fill_nan df) n = fillCol (getCol df n) := by
  rw [proc_fill_nan, getCol_mapSnd]
  by_cases h : hasCol df n = true
  · rw [h]
    simp
  · have h2 : hasCol df n = false := by revert h; cases hasCol df n <;> simp
    rw [h2, getCol_of_not_hasCol df n h2]
    simp [fillCol]

theorem getCol_find?_some (df : DF) (n : String) (c : String × List Value)
    (h : df.find? (fun c => c.1 == n) = some c) : getCol df n = c.2 := by
  induction df with
  | nil => simp at h
  | cons a rest ih =>
    by_cases ha : a.1 = n
    · rw [List.find?_cons_of_pos] at h
      · simp at h
        rw [getCol, if_pos ha, h]
      · simp [ha]
    · rw [List.find?_cons_of_neg] at h
      · rw [getCol, if_neg ha]
        exact ih h
      · simp [ha]

theorem find?_none_hasCol (df : DF) (n : String)
    (h : df.find? (fun c => c.1 == n) = none) : hasCol df n = false := by
  induction df with
  | nil => rfl
  | cons a rest ih =>
    rw [List.find?_cons] at h
    by_cases ha : a.1 = n
    · simp [ha] at h
    · have hb : (a.1 == n) = false := by simpa using ha
      rw [hb] at h
      change List.find? (fun c => c.1 == n) rest = none at h
      simp [hasCol, ha]
      exact ih h

theorem containsDate (x : String) :
    (["Date"] : List String).contains x = (x == "Date") := by
  simp only [List.contains, List.elem]
  cases h : x == "Date" <;> rfl

theorem dropDate_pred_eq :
    (fun c : String × List Value => !((["Date"] : List String).contains c.1)) =
      (fun c : String × List Value => !(c.1 == "Date")) :=
  funext fun c => by rw [containsDate]

theorem hasCol_filter_self (df : DF) (key : String) :
    hasCol (df.filter (fun c => !(c.1 == key))) key = false := by
  induction df with
  | nil => rfl
  | cons c rest ih =>
    by_cases hc : c.1 = key
    · simp [List.filter_cons, hc, ih]
    · simp [List.filter_cons, hc, hasCol, ih]

theorem hasCol_dropDate (df : DF) :
    hasCol (df.filter (fun c => !((["Date"] : List String).contains c.1)))
      "Date" = false := by
  rw [dropDate_pred_eq]
  exact hasCol_filter_self df "Date"

theorem getCol_dropDate_map (df : DF) (m : ℚ) (n : String) (hn : n ≠ "Date") :
    getCol ((df.filter (fun c =>
        !((["Date"] : List String).contains c.1))).map
      (fun c => (c.1, normColumn c.2 m))) n = normColumn (getCol df n) m := by
  rw [dropDate_pred_eq]
  have hm : getCol ((df.filter (fun c => !(c.1 == "Date"))).map
      (fun c => (c.1, normColumn c.2 m))) n =
      if hasCol (df.filter (fun c => !(c.1 == "Date"))) n then
        normColumn (getCol (df.filter (fun c => !(c.1 == "Date"))) n) m
      else [] :=
    getCol_mapSnd _ (fun xs => normColumn xs m) _
  rw [hm, hasCol_filterOut df "Date" n hn, getCol_filterOut df "Date" n hn]
  by_cases h : hasCol df n = true
  · rw [h]
    simp
  · have h2 : hasCol df n = false := by revert h; cases hasCol df n <;> simp
    rw [h2, getCol_of_not_hasCol df n h2]
    simp [normColumn]

theorem minmax_getCol_Date (df0 : DF) (m : ℚ) :
    getCol (proc_min_max_normalize df0 m false ["Date"]) "Date" =
      fillCol (getCol df0 "Date") := by
  rw [proc_min_max_normalize]
  simp only [Bool.false_eq_true, if_false]
  rw [← getCol_fill df0 "Date"]
  set df := proc_fill_nan df0 with hdf
  cases hfind : df.find? (fun c => c.1 == "Date") with
  | some c =>
    have hc1 : c.1 = "Date" := by
      have := List.find?_some hfind
      simpa using this
    have hE : (["Date"] : List String).filterMap
        (fun n => df.find? (fun c => c.1 == n)) = [c] := by
      simp [List.filterMap, hfind]
    rw [hE]
    have hfront : getCol ([c] ++ (df.filter (fun c =>
        !((["Date"] : List String).contains c.1))).map
      (fun c => (c.1, normColumn c.2 m))) "Date" = c.2 := by
      rw [getCol_append]
      simp [hasCol, getCol, hc1]
    rw [hfront, getCol_find?_some df "Date" c hfind]
  | none =>
    have hE : (["Date"] : List String).filterMap
        (fun n => df.find? (fun c => c.1 == n)) = [] := by
      simp [List.filterMap, hfind]
    rw [hE]
    have hno : hasCol df "Date" = false := find?_none_hasCol df "Date" hfind
    rw [getCol_of_not_hasCol df "Date" hno]
    simp only [List.nil_append]
    have hm : getCol ((df.filter (fun c =>
        !((["Date"] : List String).contains c.1))).map
        (fun c => (c.1, normColumn c.2 m))) "Date" =
        if hasCol (df.filter (fun c =>
          !((["Date"] : List String).contains c.1))) "Date" then
          normColumn (getCol (df.filter (fun c =>
            !((["Date"] : List String).contains c.1))) "Date") m
        else [] :=
      getCol_mapSnd _ (fun xs => normColumn xs m) _
    rw [hm, hasCol_dropDate df]
    simp [fillCol]

theorem minmax_getCol_col (df0 : DF) (m : ℚ) (n : String) (hn : n ≠ "Date") :
    getCol (proc_min_max_normalize df0 m false ["Date"]) n =
      normColumn (fillCol (getCol df0 n)) m := by
  rw [proc_min_max_normalize]
  simp only [Bool.false_eq_true, if_false]
  rw [getCol_append]
  have hexc : hasCol ((["Date"] : List String).filterMap
      (fun nn => (proc_fill_nan df0).find? (fun c => c.1 == nn))) n = false := by
    cases hfind : (proc_fill_nan df0).find? (fun c => c.1 == "Date") with
    | some c =>
      have hc1 : c.1 = "Date" := by simpa using List.find?_some hfind
      have hcn : ¬c.1 = n := fun hh => hn (hh.symm.trans hc1)
      simp [List.filterMap, hfind, hasCol, hcn]
    | none => simp [List.filterMap, hfind, hasCol]
  rw [hexc]
  simp only [Bool.false_eq_true, if_false]
  rw [getCol_dropDate_map (proc_fill_nan df0) m n hn, getCol_fill]

/-- C5 is corrected by this counterexample: with a NaN entry in the
"Date" column, the initial NaN fill of proc_min_max_normalize runs over
the whole table before the exclusion is applied, so the returned "Date"
column is [0, 1] although the input "Date" column was [NaN, 1]: the
excluded column's values are not unchanged, refuting the claim as
stated (the non-excluded column is still scaled to [0, 100]). -/
theorem C5_minmax_counterexample :
    getCol (proc_min_max_normalize
      [("Date", [none, some 1]), ("A", [some 0, some 2])] 100 false ["Date"])
      "Date" = [some 0, some 1] ∧
    getCol ([("Date", [none, some 1]), ("A", [some 0, some 2])] : DF) "Date" =
      [none, some 1] ∧
    ([none, some 1] : List Value) ≠ [some 0, some 1] ∧
    getCol (proc_min_max_normalize
      [("Date", [none, some 1]), ("A", [some 0, some 2])] 100 false ["Date"])
      "A" = [some 0, some 100] := by
  refine ⟨?_, rfl, by decide, ?_⟩
  · norm_num [proc_min_max_normalize, proc_fill_nan, fillCol, normColumn,
      normCell, colMin, colMax, getCol, hasCol, List.filterMap, List.find?,
      List.filter, List.contains, List.elem, List.filterMap_cons]
  · have hda : ("Date" : String) ≠ "A" := by decide
    have had : ("A" : String) ≠ "Date" := by decide
    norm_num [proc_min_max_normalize, proc_fill_nan, fillCol, normColumn,
      normCell, colMin, colMax, getCol, hasCol, List.filterMap, List.find?,
      List.filter, List.contains, List.elem, List.filterMap_cons,
      List.min?, List.max?, hda, had]

/-- C5 (amended): proc_min_max_normalize with all_col = False,
max_scale = 100 and exclude_col = ["Date"] returns a table in which, for
every non-excluded column whose values after the initial NaN-to-zero
fill are not all equal, every cell holding the column minimum maps to 0
and every cell holding the maximum maps to 100; the "Date" column is
repositioned to the front and its values are the NaN-filled original
values — unchanged except that missing dates become 0, because the
initial fill runs before the exclusion (the counterexample above forces
exactly this qualification). -/
theorem C5_minmax_amended :
    ∀ (df0 : DF) (n : String) (i : ℕ) (mn mx : ℚ),
      n ≠ "Date" →
      colMin (fillCol (getCol df0 n)) = some mn →
      colMax (fillCol (getCol df0 n)) = some mx →
      mn ≠ mx →
      (getCol (proc_min_max_normalize df0 100 false ["Date"]) "Date" =
        fillCol (getCol df0 "Date")) ∧
      ((fillCol (getCol df0 n)).get? i = some (some mn) →
        (getCol (proc_min_max_normalize df0 100 false ["Date"]) n).get? i =
          some (some 0)) ∧
      ((fillCol (getCol df0 n)).get? i = some (some mx) →
        (getCol (proc_min_max_normalize df0 100 false ["Date"]) n).get? i =
          some (some 100)) := by
  intro df0 n i mn mx hn hmn hmx hne
  refine ⟨minmax_getCol_Date df0 100, fun hi => ?_, fun hi => ?_⟩
  · rw [minmax_getCol_col df0 100 n hn, normColumn, List.get?_map, hi, hmn, hmx]
    have hc : normCell (some mn) (some mx) 100 (some mn) = some 0 := by
      simp only [normCell]
      rw [if_neg (Ne.symm hne)]
      norm_num
    simp [hc]
  · rw [minmax_getCol_col df0 100 n hn, normColumn, List.get?_map, hi, hmn, hmx]
    have hc : normCell (some mn) (some mx) 100 (some mx) = some 100 := by
      simp only [normCell]
      rw [if_neg (Ne.symm hne)]
      rw [div_self (sub_ne_zero.mpr (Ne.symm hne))]
      norm_num
    simp [hc]

/-- Witness for C5 (amended): a two-row table whose "A" column is
[1, 3]; after normalization the minimum cell maps to 0, the maximum cell
maps to 100, and the "Date" column values [5, 6] are unchanged. -/
theorem C5_minmax_amended_witness :
    (getCol (proc_min_max_normalize
      [("Date", [some 5, some 6]), ("A", [some 1, some 3])] 100 false
      ["Date"]) "Date" = fillCol [some 5, some 6]) ∧
    (getCol (proc_min_max_normalize
      [("Date", [some 5, some 6]), ("A", [some 1, some 3])] 100 false
      ["Date"]) "A").get? 0 = some (some 0) ∧
    (getCol (proc_min_max_normalize
      [("Date", [some 5, some 6]), ("A", [some 1, some 3])] 100 false
      ["Date"]) "A").get? 1 = some (some 100) := by
  have h := C5_minmax_amended [("Date", [some 5, some 6]),
    ("A", [some 1, some 3])] "A" 0 1 3 (by decide)
    (by rw [show getCol [("Date", [some 5, some 6]), ("A", [some 1, some 3])]
          "A" = [some 1, some 3] from rfl]
        norm_num [colMin, fillCol, List.min?, List.filterMap, List.foldl,
          min_def])
    (by rw [show getCol [("Date", [some 5, some 6]), ("A", [some 1, some 3])]
          "A" = [some 1, some 3] from rfl]
        norm_num [colMax, fillCol, List.max?, List.filterMap, List.foldl,
          max_def])
    (by norm_num)
  have h2 := C5_minmax_amended [("Date", [some 5, some 6]),
    ("A", [some 1, some 3])] "A" 1 1 3 (by decide)
    (by rw [show getCol [("Date", [some 5, some 6]), ("A", [some 1, some 3])]
          "A" = [some 1, some 3] from rfl]
        norm_num [colMin, fillCol, List.min?, List.filterMap, List.foldl,
          min_def])
    (by rw [show getCol [("Date", [some 5, some 6]), ("A", [some 1, some 3])]
          "A" = [some 1, some 3] from rfl]
        norm_num [colMax, fillCol, List.max?, List.filterMap, List.foldl,
          max_def])
    (by norm_num)
  exact ⟨h.1, h.2.1 rfl, h2.2.2 rfl⟩

/-- Concrete table for C9: an all-positive pct column with noise
threshold 1/2, whose noise-band quantile min_positive_pct = 5/2 crosses
the 25th percentile 7/4. -/
def c9df : DF := [("Close-pct", [some 1, some 2, some 3, some 4])]

/-- C9: a row can satisfy none of the eight strict-inequality range
conditions of proc_add_direction and then stays unlabeled.  In this
table with noise_threshold 1/2 (inside (0,1)), the row with value 2
fails all eight conditions — here the noise-band quantile
min_positive_pct lies above the 25th percentile (last conjunct), the
crossing the spec describes — and its direction cell remains missing
(NaN) in the returned table. -/
theorem C9_gap_row_stays_unlabeled :
    (0 < (1 / 2 : ℚ) ∧ (1 / 2 : ℚ) < 1) ∧
    vlt (some 2) (quantile (getCol c9df "Close-pct") (10 / 100)) = false ∧
    (vlt (some 2) (quantile (getCol c9df "Close-pct") (25 / 100)) &&
      vlt (quantile (getCol c9df "Close-pct") (10 / 100)) (some 2)) = false ∧
    (vlt (some 2) (quantile ((getCol c9df "Close-pct").filter
        (fun v => vlt v (some 0))) (1 - 1 / 2)) &&
      vlt (quantile (getCol c9df "Close-pct") (25 / 100)) (some 2)) = false ∧
    (vlt (quantile ((getCol c9df "Close-pct").filter
        (fun v => vlt v (some 0))) (1 - 1 / 2)) (some 2) &&
      vlt (some 2) (quantile ((getCol c9df "Close-pct").filter
        (fun v => vlt (some 0) v)) (1 / 2))) = false ∧
    (vlt (quantile ((getCol c9df "Close-pct").filter
        (fun v => vlt (some 0) v)) (1 / 2)) (some 2) &&
      vlt (some 2) (quantile (getCol c9df "Close-pct") (75 / 100))) = false ∧
    (vlt (quantile (getCol c9df "Close-pct") (75 / 100)) (some 2) &&
      vlt (some 2) (quantile (getCol c9df "Close-pct") (85 / 100))) = false ∧
    (vlt (quantile (getCol c9df "Close-pct") (85 / 100)) (some 2) &&
      vlt (some 2) (quantile (getCol c9df "Close-pct") (95 / 100))) = false ∧
    vlt (quantile (getCol c9df "Close-pct") (95 / 100)) (some 2) = false ∧
    (getCol (proc_add_direction c9df "Close" [] [] (1 / 2)).1
      "Close-direction").get? 1 = some none ∧
    vlt (quantile (getCol c9df "Close-pct") (25 / 100))
      (quantile ((getCol c9df "Close-pct").filter
        (fun v => vlt (some 0) v)) (1 / 2)) = true := by
  refine ⟨by norm_num, ?_, ?_, ?_, ?_, ?_, ?_, ?_, ?_, ?_, ?_⟩ <;>
    norm_num [c9df, proc_add_direction, proc_add_percent_change, hasCol,
      getCol, setCol, locSet, maskLt, maskGt, maskAnd, vlt, quantile,
      interpWalk, List.insertionSort, List.orderedInsert, List.filterMap,
      List.filter, List.zipWith, List.map, List.get?]

/-- First counterexample table for C1: two negative values and ten equal
positive ones; the 10th percentile is -4/5 and the noise band reaches
down to -163/100, overlapping the region below the 10th percentile. -/
def c1dfA : DF := [("Close-pct",
  [some (-10), some (-1), some 1, some 1, some 1, some 1, some 1, some 1,
   some 1, some 1, some 1, some 1])]

/-- Second counterexample table for C1: ten negative values and two
positive ones; the noise band (-163/100, 507/100) reaches above the 75th
and 85th percentiles. -/
def c1dfB : DF := [("Close-pct",
  [some (-10), some (-9), some (-8), some (-7), some (-6), some (-5),
   some (-4), some (-3), some (-2), some (-1), some 5, some 6])]

/-- C1 is corrected by this counterexample: the eight assignments do run
in the written order with last-applied-wins, but that very order breaks
two of the claimed final labelings.  In table c1dfA the row with value
-1 lies strictly below the 10th percentile, yet the later noise-band
assignment overwrites its -7 with 0.  In table c1dfB the row with value
-1 lies strictly inside the noise band (between min_negative_pct and
min_positive_pct), yet the later 75th-to-85th-percentile assignment
overwrites its 0 with 3.  Both use noise_threshold 7/100, inside (0,1). -/
theorem C1_direction_counterexample :
    vlt ((getCol c1dfA "Close-pct").getD 1 none)
      (quantile (getCol c1dfA "Close-pct") (10 / 100)) = true ∧
    (getCol (proc_add_direction c1dfA "Close" [] [] (7 / 100)).1
      "Close-direction").get? 1 = some (some 0) ∧
    (some (0 : ℚ) : Value) ≠ some (-7) ∧
    vlt (quantile ((getCol c1dfB "Close-pct").filter
        (fun v => vlt v (some 0))) (1 - 7 / 100))
      ((getCol c1dfB "Close-pct").getD 9 none) = true ∧
    vlt ((getCol c1dfB "Close-pct").getD 9 none)
      (quantile ((getCol c1dfB "Close-pct").filter
        (fun v => vlt (some 0) v)) (7 / 100)) = true ∧
    (getCol (proc_add_direction c1dfB "Close" [] [] (7 / 100)).1
      "Close-direction").get? 9 = some (some 3) ∧
    (some (3 : ℚ) : Value) ≠ some 0 := by
  refine ⟨?_, ?_, by norm_num, ?_, ?_, ?_, by norm_num⟩ <;>
    norm_num [c1dfA, c1dfB, proc_add_direction, proc_add_percent_change,
      hasCol, getCol, setCol, locSet, maskLt, maskGt, maskAnd, vlt, quantile,
      interpWalk, List.insertionSort, List.orderedInsert, List.filterMap,
      List.filter, List.zipWith, List.map, List.get?, List.getD]

/-! Order lemmas for the quantile interpolation. -/

theorem interpWalk_ge_head (t : List ℚ) :
    ∀ (x h : ℚ), (x :: t).Sorted (fun a b => a ≤ b) → 0 ≤ h →
      x ≤ interpWalk (x :: t) h := by
  induction t with
  | nil => intro x h _ _; exact le_refl x
  | cons y t' ih =>
    intro x h hs hh
    rw [List.sorted_cons] at hs
    have hxy : x ≤ y := hs.1 y (by simp)
    rw [interpWalk]
    by_cases hc : h < 1
    · rw [if_pos hc]
      nlinarith
    · rw [if_neg hc]
      have : y ≤ interpWalk (y :: t') (h - 1) := ih y (h - 1) hs.2 (by linarith)
      linarith

theorem interpWalk_mono (s : List ℚ) :
    ∀ (h1 h2 : ℚ), s.Sorted (fun a b => a ≤ b) → 0 ≤ h1 → h1 ≤ h2 →
      interpWalk s h1 ≤ interpWalk s h2 := by
  induction s with
  | nil => intro h1 h2 _ _ _; exact le_refl _
  | cons x t ih =>
    intro h1 h2 hs h0 h12
    cases t with
    | nil => exact le_refl _
    | cons y t' =>
      rw [List.sorted_cons] at hs
      have hxy : x ≤ y := hs.1 y (by simp)
      rw [interpWalk, interpWalk]
      by_cases hc2 : h2 < 1
      · have hc1 : h1 < 1 := lt_of_le_of_lt h12 hc2
        rw [if_pos hc1, if_pos hc2]
        nlinarith
      · by_cases hc1 : h1 < 1
        · rw [if_pos hc1, if_neg hc2]
          have hy : y ≤ interpWalk (y :: t') (h2 - 1) :=
            interpWalk_ge_head t' y (h2 - 1) hs.2 (by linarith)
          nlinarith
        · rw [if_neg hc1, if_neg hc2]
          exact ih (h1 - 1) (h2 - 1) hs.2 (by linarith) (by linarith)

theorem interpWalk_neg (s : List ℚ) :
    ∀ h : ℚ, s.Sorted (fun a b => a ≤ b) → (∀ x ∈ s, x < 0) → s ≠ [] →
      interpWalk s h < 0 := by
  induction s with
  | nil => intro h _ _ hne; exact absurd rfl hne
  | cons x t ih =>
    intro h hs hneg _
    cases t with
    | nil => exact hneg x (by simp)
    | cons y t' =>
      rw [List.sorted_cons] at hs
      have hxy : x ≤ y := hs.1 y (by simp)
      have hy : y < 0 := hneg y (by simp)
      rw [interpWalk]
      by_cases hc : h < 1
      · rw [if_pos hc]
        nlinarith
      · rw [if_neg hc]
        exact ih (h - 1) hs.2 (fun z hz => hneg z (by simp [hz])) (by simp)

theorem interpWalk_pos (s : List ℚ) (h : ℚ)
    (hs : s.Sorted (fun a b => a ≤ b)) (hpos : ∀ x ∈ s, 0 < x) (h0 : 0 ≤ h)
    (hne : s ≠ []) : 0 < interpWalk s h := by
  cases s with
  | nil => exact absurd rfl hne
  | cons x t =>
    have := interpWalk_ge_head t x h hs h0
    have hx : 0 < x := hpos x (by simp)
    linarith

/-! Order lemmas for quantile. -/

theorem sort_mem_iff (xs : List Value) (a : ℚ) :
    a ∈ List.insertionSort (fun a b => a ≤ b) (xs.filterMap id) ↔
      a ∈ xs.filterMap id :=
  (List.perm_insertionSort _ _).mem_iff

theorem quantile_isSome_of_isSome (xs : List Value) (q q' : ℚ) (a : ℚ)
    (h : quantile xs q = some a) : ∃ b, quantile xs q' = some b := by
  rw [quantile] at h ⊢
  cases hs : List.insertionSort (fun a b => a ≤ b) (xs.filterMap id) with
  | nil => rw [hs] at h; exact absurd h (by simp)
  | cons z zt => exact ⟨_, rfl⟩

theorem quantile_mono (xs : List Value) (q1 q2 a b : ℚ) (h0 : 0 ≤ q1)
    (h12 : q1 ≤ q2) (ha : quantile xs q1 = some a)
    (hb : quantile xs q2 = some b) : a ≤ b := by
  rw [quantile] at ha hb
  cases hs : List.insertionSort (fun a b => a ≤ b) (xs.filterMap id) with
  | nil => rw [hs] at ha; exact absurd ha (by simp)
  | cons z zt =>
    rw [hs] at ha hb
    simp only [Option.some_inj] at ha hb
    have hsort : (z :: zt).Sorted (fun a b => a ≤ b) := by
      rw [← hs]
      exact List.sorted_insertionSort _ _
    have hn1 : (0 : ℚ) ≤ ((z :: zt).length : ℚ) - 1 := by
      have : (1 : ℚ) ≤ ((z :: zt).length : ℚ) := by
        have : 1 ≤ (z :: zt).length := by simp
        exact_mod_cast this
      linarith
    rw [← ha, ← hb]
    exact interpWalk_mono (z :: zt) _ _ hsort (mul_nonneg h0 hn1)
      (mul_le_mul_of_nonneg_right h12 hn1)

theorem quantile_neg (xs : List Value) (q a : ℚ) (h0 : 0 ≤ q)
    (hneg : ∀ v ∈ xs.filterMap id, v < 0) (h : quantile xs q = some a) :
    a < 0 := by
  rw [quantile] at h
  cases hs : List.insertionSort (fun a b => a ≤ b) (xs.filterMap id) with
  | nil => rw [hs] at h; exact absurd h (by simp)
  | cons z zt =>
    rw [hs] at h
    simp only [Option.some_inj] at h
    have hsort : (z :: zt).Sorted (fun a b => a ≤ b) := by
      rw [← hs]
      exact List.sorted_insertionSort _ _
    have hmem : ∀ x ∈ (z :: zt), x < 0 := by
      intro x hx
      apply hneg
      rw [← sort_mem_iff xs x, hs]
      exact hx
    rw [← h]
    exact interpWalk_neg (z :: zt) _ hsort hmem (by simp)

theorem quantile_pos (xs : List Value) (q a : ℚ) (h0 : 0 ≤ q)
    (hpos : ∀ v ∈ xs.filterMap id, 0 < v) (h : quantile xs q = some a) :
    0 < a := by
  rw [quantile] at h
  cases hs : List.insertionSort (fun a b => a ≤ b) (xs.filterMap id) with
  | nil => rw [hs] at h; exact absurd h (by simp)
  | cons z zt =>
    rw [hs] at h
    simp only [Option.some_inj] at h
    have hsort : (z :: zt).Sorted (fun a b => a ≤ b) := by
      rw [← hs]
      exact List.sorted_insertionSort _ _
    have hmem : ∀ x ∈ (z :: zt), 0 < x := by
      intro x hx
      apply hpos
      rw [← sort_mem_iff xs x, hs]
      exact hx
    have hn1 : (0 : ℚ) ≤ ((z :: zt).length : ℚ) - 1 := by
      have h1 : (1 : ℚ) ≤ ((z :: zt).length : ℚ) := by
        have : 1 ≤ (z :: zt).length := by simp
        exact_mod_cast this
      linarith
    rw [← h]
    exact interpWalk_pos (z :: zt) _ hsort hmem (mul_nonneg h0 hn1) (by simp)

/-- Pure per-row form of the eight overwriting assignments of
proc_add_direction, in source order: a later matching range overwrites
the earlier label, and a row matching no range keeps NaN. -/
def dirLabel (w q10v q25v q75v q85v q95v mnv mpv : Value) : Value :=
  let s1 := if vlt w q10v then some (-7 : ℚ) else none
  let s2 := if vlt w q25v && vlt q10v w then some (-3 : ℚ) else s1
  let s3 := if vlt w mnv && vlt q25v w then some (-1 : ℚ) else s2
  let s4 := if vlt mnv w && vlt w mpv then some (0 : ℚ) else s3
  let s5 := if vlt mpv w && vlt w q75v then some (1 : ℚ) else s4
  let s6 := if vlt q75v w && vlt w q85v then some (3 : ℚ) else s5
  let s7 := if vlt q85v w && vlt w q95v then some (5 : ℚ) else s6
  if vlt q95v w then some (7 : ℚ) else s7

theorem maskLt_get? (xs : List Value) (q : Value) (i : ℕ) (w : Value)
    (h : xs.get? i = some w) : (maskLt xs q).get? i = some (vlt w q) := by
  rw [maskLt, List.get?_map, h]
  rfl

theorem maskGt_get? (xs : List Value) (q : Value) (i : ℕ) (w : Value)
    (h : xs.get? i = some w) : (maskGt xs q).get? i = some (vlt q w) := by
  rw [maskGt, List.get?_map, h]
  rfl

theorem maskAnd_get? (a b : List Bool) (i : ℕ) (x y : Bool)
    (ha : a.get? i = some x) (hb : b.get? i = some y) :
    (maskAnd a b).get? i = some (x && y) :=
  zipWith_get?_of_some _ a b i x y ha hb

theorem getCol_locSet_get? (df : DF) (mask : List Bool) (lbl : String)
    (v : ℚ) (i : ℕ) (b : Bool) (o : Value)
    (hm : mask.get? i = some b)
    (ho : (if hasCol df lbl then getCol df lbl
      else mask.map (fun _ => none)).get? i = some o) :
    (getCol (locSet df mask lbl v) lbl).get? i =
      some (if b then some v else o) := by
  rw [getCol_locSet_self]
  exact zipWith_get?_of_some _ _ _ _ _ _ hm ho

theorem direction_label_char (df : DF) (c : String) (cat cont : List String)
    (noise : ℚ) (i : ℕ) (w : Value)
    (hpct : hasCol df (c ++ "-pct") = true)
    (hfresh : hasCol df (c ++ "-direction") = false)
    (ht : (getCol df (c ++ "-pct")).get? i = some w) :
    (getCol (proc_add_direction df c cat cont noise).1
      (c ++ "-direction")).get? i =
      some (dirLabel w
        (quantile (getCol df (c ++ "-pct")) (10 / 100))
        (quantile (getCol df (c ++ "-pct")) (25 / 100))
        (quantile (getCol df (c ++ "-pct")) (75 / 100))
        (quantile (getCol df (c ++ "-pct")) (85 / 100))
        (quantile (getCol df (c ++ "-pct")) (95 / 100))
        (quantile ((getCol df (c ++ "-pct")).filter
          (fun v => vlt v (some 0))) (1 - noise))
        (quantile ((getCol df (c ++ "-pct")).filter
          (fun v => vlt (some 0) v)) noise)) := by
  have hne : (c ++ "-pct") ≠ (c ++ "-direction") := pct_ne_direction c
  simp only [proc_add_direction, hpct, if_true]
  set t := getCol df (c ++ "-pct") with htdef
  set q10v := quantile t (10 / 100) with hq10
  set q25v := quantile t (25 / 100) with hq25
  set q75v := quantile t (75 / 100) with hq75
  set q85v := quantile t (85 / 100) with hq85
  set q95v := quantile t (95 / 100) with hq95
  set mpv := quantile (t.filter (fun v => vlt (some 0) v)) noise with hmp
  set mnv := quantile (t.filter (fun v => vlt v (some 0))) (1 - noise) with hmn
  set lbl := c ++ "-direction" with hlbl
  set df1 := locSet df (maskLt t q10v) lbl (-7) with hdf1
  have ht1 : getCol df1 (c ++ "-pct") = t := by
    rw [hdf1]
    exact getCol_locSet_ne _ _ _ _ _ hne
  have hh1 : hasCol df1 lbl = true := by
    rw [hdf1]
    exact hasCol_locSet_self _ _ _ _
  have hm1 : (maskLt t q10v).get? i = some (vlt w q10v) :=
    maskLt_get? t q10v i w ht
  have hg1 : (getCol df1 lbl).get? i =
      some (if vlt w q10v then some (-7 : ℚ) else none) := by
    rw [hdf1]
    refine getCol_locSet_get? _ _ _ _ _ _ _ hm1 ?_
    rw [hfresh]
    simp only [Bool.false_eq_true, if_false, List.get?_map, hm1]
    rfl
  set df2 := locSet df1 (maskAnd (maskLt (getCol df1 (c ++ "-pct")) q25v)
    (maskGt (getCol df1 (c ++ "-pct")) q10v)) lbl (-3) with hdf2
  have ht2 : getCol df2 (c ++ "-pct") = t := by
    rw [hdf2, getCol_locSet_ne _ _ _ _ _ hne, ht1]
  have hh2 : hasCol df2 lbl = true := by
    rw [hdf2]
    exact hasCol_locSet_self _ _ _ _
  have hm2 : (maskAnd (maskLt (getCol df1 (c ++ "-pct")) q25v)
      (maskGt (getCol df1 (c ++ "-pct")) q10v)).get? i =
      some (vlt w q25v && vlt q10v w) := by
    rw [ht1]
    exact maskAnd_get? _ _ i _ _ (maskLt_get? t q25v i w ht)
      (maskGt_get? t q10v i w ht)
  have hg2 : (getCol df2 lbl).get? i =
      some (if vlt w q25v && vlt q10v w then some (-3 : ℚ)
        else if vlt w q10v then some (-7 : ℚ) else none) := by
    rw [hdf2]
    refine getCol_locSet_get? _ _ _ _ _ _ _ hm2 ?_
    rw [hh1]
    simpa using hg1
  set df3 := locSet df2 (maskAnd (maskLt (getCol df2 (c ++ "-pct")) mnv)
    (maskGt (getCol df2 (c ++ "-pct")) q25v)) lbl (-1) with hdf3
  have ht3 : getCol df3 (c ++ "-pct") = t := by
    rw [hdf3, getCol_locSet_ne _ _ _ _ _ hne, ht2]
  have hh3 : hasCol df3 lbl = true := by
    rw [hdf3]
    exact hasCol_locSet_self _ _ _ _
  have hm3 : (maskAnd (maskLt (getCol df2 (c ++ "-pct")) mnv)
      (maskGt (getCol df2 (c ++ "-pct")) q25v)).get? i =
      some (vlt w mnv && vlt q25v w) := by
    rw [ht2]
    exact maskAnd_get? _ _ i _ _ (maskLt_get? t mnv i w ht)
      (maskGt_get? t q25v i w ht)
  have hg3 : (getCol df3 lbl).get? i =
      some (if vlt w mnv && vlt q25v w then some (-1 : ℚ)
        else if vlt w q25v && vlt q10v w then some (-3 : ℚ)
        else if vlt w q10v then some (-7 : ℚ) else none) := by
    rw [hdf3]
    refine getCol_locSet_get? _ _ _ _ _ _ _ hm3 ?_
    rw [hh2]
    simpa using hg2
  set df4 := locSet df3 (maskAnd (maskGt (getCol df3 (c ++ "-pct")) mnv)
    (maskLt (getCol df3 (c ++ "-pct")) mpv)) lbl 0 with hdf4
  have ht4 : getCol df4 (c ++ "-pct") = t := by
    rw [hdf4, getCol_locSet_ne _ _ _ _ _ hne, ht3]
  have hh4 : hasCol df4 lbl = true := by
    rw [hdf4]
    exact hasCol_locSet_self _ _ _ _
  have hm4 : (maskAnd (maskGt (getCol df3 (c ++ "-pct")) mnv)
      (maskLt (getCol df3 (c ++ "-pct")) mpv)).get? i =
      some (vlt mnv w && vlt w mpv) := by
    rw [ht3]
    exact maskAnd_get? _ _ i _ _ (maskGt_get? t mnv i w ht)
      (maskLt_get? t mpv i w ht)
  have hg4 : (getCol df4 lbl).get? i =
      some (if vlt mnv w && vlt w mpv then some (0 : ℚ)
        else if vlt w mnv && vlt q25v w then some (-1 : ℚ)
        else if vlt w q25v && vlt q10v w then some (-3 : ℚ)
        else if vlt w q10v then some (-7 : ℚ) else none) := by
    rw [hdf4]
    refine getCol_locSet_get? _ _ _ _ _ _ _ hm4 ?_
    rw [hh3]
    simpa using hg3
  set df5 := locSet df4 (maskAnd (maskGt (getCol df4 (c ++ "-pct")) mpv)
    (maskLt (getCol df4 (c ++ "-pct")) q75v)) lbl 1 with hdf5
  have ht5 : getCol df5 (c ++ "-pct") = t := by
    rw [hdf5, getCol_locSet_ne _ _ _ _ _ hne, ht4]
  have hh5 : hasCol df5 lbl = true := by
    rw [hdf5]
    exact hasCol_locSet_self _ _ _ _
  have hm5 : (maskAnd (maskGt (getCol df4 (c ++ "-pct")) mpv)
      (maskLt (getCol df4 (c ++ "-pct")) q75v)).get? i =
      some (vlt mpv w && vlt w q75v) := by
    rw [ht4]
    exact maskAnd_get? _ _ i _ _ (maskGt_get? t mpv i w ht)
      (maskLt_get? t q75v i w ht)
  have hg5 : (getCol df5 lbl).get? i =
      some (if vlt mpv w && vlt w q75v then some (1 : ℚ)
        else if vlt mnv w && vlt w mpv then some (0 : ℚ)
        else if vlt w mnv && vlt q25v w then some (-1 : ℚ)
        else if vlt w q25v && vlt q10v w then some (-3 : ℚ)
        else if vlt w q10v then some (-7 : ℚ) else none) := by
    rw [hdf5]
    refine getCol_locSet_get? _ _ _ _ _ _ _ hm5 ?_
    rw [hh4]
    simpa using hg4
  set df6 := locSet df5 (maskAnd (maskGt (getCol df5 (c ++ "-pct")) q75v)
    (maskLt (getCol df5 (c ++ "-pct")) q85v)) lbl 3 with hdf6
  have ht6 : getCol df6 (c ++ "-pct") = t := by
    rw [hdf6, getCol_locSet_ne _ _ _ _ _ hne, ht5]
  have hh6 : hasCol df6 lbl = true := by
    rw [hdf6]
    exact hasCol_locSet_self _ _ _ _
  have hm6 : (maskAnd (maskGt (getCol df5 (c ++ "-pct")) q75v)
      (maskLt (getCol df5 (c ++ "-pct")) q85v)).get? i =
      some (vlt q75v w && vlt w q85v) := by
    rw [ht5]
    exact maskAnd_get? _ _ i _ _ (maskGt_get? t q75v i w ht)
      (maskLt_get? t q85v i w ht)
  have hg6 : (getCol df6 lbl).get? i =
      some (if vlt q75v w && vlt w q85v then some (3 : ℚ)
        else if vlt mpv w && vlt w q75v then some (1 : ℚ)
        else if vlt mnv w && vlt w mpv then some (0 : ℚ)
        else if vlt w mnv && vlt q25v w then some (-1 : ℚ)
        else if vlt w q25v && vlt q10v w then some (-3 : ℚ)
        else if vlt w q10v then some (-7 : ℚ) else none) := by
    rw [hdf6]
    refine getCol_locSet_get? _ _ _ _ _ _ _ hm6 ?_
    rw [hh5]
    simpa using hg5
  set df7 := locSet df6 (maskAnd (maskGt (getCol df6 (c ++ "-pct")) q85v)
    (maskLt (getCol df6 (c ++ "-pct")) q95v)) lbl 5 with hdf7
  have ht7 : getCol df7 (c ++ "-pct") = t := by
    rw [hdf7, getCol_locSet_ne _ _ _ _ _ hne, ht6]
  have hh7 : hasCol df7 lbl = true := by
    rw [hdf7]
    exact hasCol_locSet_self _ _ _ _
  have hm7 : (maskAnd (maskGt (getCol df6 (c ++ "-pct")) q85v)
      (maskLt (getCol df6 (c ++ "-pct")) q95v)).get? i =
      some (vlt q85v w && vlt w q95v) := by
    rw [ht6]
    exact maskAnd_get? _ _ i _ _ (maskGt_get? t q85v i w ht)
      (maskLt_get? t q95v i w ht)
  have hg7 : (getCol df7 lbl).get? i =
      some (if vlt q85v w && vlt w q95v then some (5 : ℚ)
        else if vlt q75v w && vlt w q85v then some (3 : ℚ)
        else if vlt mpv w && vlt w q75v then some (1 : ℚ)
        else if vlt mnv w && vlt w mpv then some (0 : ℚ)
        else if vlt w mnv && vlt q25v w then some (-1 : ℚ)
        else if vlt w q25v && vlt q10v w then some (-3 : ℚ)
        else if vlt w q10v then some (-7 : ℚ) else none) := by
    rw [hdf7]
    refine getCol_locSet_get? _ _ _ _ _ _ _ hm7 ?_
    rw [hh6]
    simpa using hg6
  have hm8 : (maskGt (getCol df7 (c ++ "-pct")) q95v).get? i =
      some (vlt q95v w) := by
    rw [ht7]
    exact maskGt_get? t q95v i w ht
  have hg8 : (getCol (locSet df7 (maskGt (getCol df7 (c ++ "-pct")) q95v)
      lbl 7) lbl).get? i =
      some (if vlt q95v w then some (7 : ℚ)
        else if vlt q85v w && vlt w q95v then some (5 : ℚ)
        else if vlt q75v w && vlt w q85v then some (3 : ℚ)
        else if vlt mpv w && vlt w q75v then some (1 : ℚ)
        else if vlt mnv w && vlt w mpv then some (0 : ℚ)
        else if vlt w mnv && vlt q25v w then some (-1 : ℚ)
        else if vlt w q25v && vlt q10v w then some (-3 : ℚ)
        else if vlt w q10v then some (-7 : ℚ) else none) := by
    refine getCol_locSet_get? _ _ _ _ _ _ _ hm8 ?_
    rw [hh7]
    simpa using hg7
  rw [hg8]
  rfl

theorem vlt_some (a b : ℚ) : vlt (some a) (some b) = decide (a < b) := rfl

theorem vlt_right_none (a : Value) : vlt a none = false := by
  cases a <;> rfl

theorem vlt_left_none (a : Value) : vlt none a = false := by
  cases a <;> rfl

theorem mem_filter_neg (t : List Value) (x : ℚ)
    (h : x ∈ (t.filter (fun v => vlt v (some 0))).filterMap id) : x < 0 := by
  rw [List.mem_filterMap] at h
  obtain ⟨a, ha, hid⟩ := h
  rw [List.mem_filter] at ha
  have ha2 := ha.2
  rw [show (id a : Value) = a from rfl] at hid
  rw [hid] at ha2
  rw [vlt_some] at ha2
  exact of_decide_eq_true ha2

theorem mem_filter_pos (t : List Value) (x : ℚ)
    (h : x ∈ (t.filter (fun v => vlt (some 0) v)).filterMap id) : 0 < x := by
  rw [List.mem_filterMap] at h
  obtain ⟨a, ha, hid⟩ := h
  rw [List.mem_filter] at ha
  have ha2 := ha.2
  rw [show (id a : Value) = a from rfl] at hid
  rw [hid] at ha2
  rw [vlt_some] at ha2
  exact of_decide_eq_true ha2

/-- C1 (amended): proc_add_direction applies its eight range assignments
in the fixed written order, a later assignment overwriting any row an
earlier one also matched.  Consequently every row strictly above the
95th percentile ends labeled 7 unconditionally; every row strictly below
the 10th percentile ends labeled -7 provided the noise band does not
reach below the 10th percentile (min_negative_pct at least the 10th
percentile); and every row strictly inside the noise band ends labeled 0
provided min_positive_pct is at most the 75th percentile.  The two
provisos are exactly what the counterexample forces: without them the
noise-band assignment overwrites -7, and the upper-percentile
assignments overwrite 0. -/
theorem C1_direction_amended :
    ∀ (df : DF) (c : String) (cat cont : List String) (noise : ℚ)
      (i : ℕ) (v : ℚ),
      hasCol df (c ++ "-pct") = true →
      hasCol df (c ++ "-direction") = false →
      (getCol df (c ++ "-pct")).get? i = some (some v) →
      0 ≤ noise → noise ≤ 1 →
      (∀ q95 : ℚ,
        quantile (getCol df (c ++ "-pct")) (95 / 100) = some q95 → q95 < v →
        (getCol (proc_add_direction df c cat cont noise).1
          (c ++ "-direction")).get? i = some (some 7)) ∧
      (∀ q10 mn : ℚ,
        quantile (getCol df (c ++ "-pct")) (10 / 100) = some q10 →
        quantile ((getCol df (c ++ "-pct")).filter
          (fun u => vlt u (some 0))) (1 - noise) = some mn →
        v < q10 → q10 ≤ mn →
        (getCol (proc_add_direction df c cat cont noise).1
          (c ++ "-direction")).get? i = some (some (-7))) ∧
      (∀ mn mp q75 : ℚ,
        quantile ((getCol df (c ++ "-pct")).filter
          (fun u => vlt u (some 0))) (1 - noise) = some mn →
        quantile ((getCol df (c ++ "-pct")).filter
          (fun u => vlt (some 0) u)) noise = some mp →
        quantile (getCol df (c ++ "-pct")) (75 / 100) = some q75 →
        mn < v → v < mp → mp ≤ q75 →
        (getCol (proc_add_direction df c cat cont noise).1
          (c ++ "-direction")).get? i = some (some 0)) := by
  intro df c cat cont noise i v hpct hfresh ht h0n h1n
  have hchar := direction_label_char df c cat cont noise i (some v) hpct hfresh ht
  set t := getCol df (c ++ "-pct") with htdef
  refine ⟨fun q95 h95 hv => ?_, fun q10 mn h10 hmn hv hg => ?_,
    fun mn mp q75 hmn hmp h75 hv1 hv2 hg => ?_⟩
  · rw [hchar, h95]
    have b8 : vlt (some q95) (some v) = true := by
      rw [vlt_some]
      exact decide_eq_true hv
    simp only [dirLabel, b8, if_true]
  · obtain ⟨q25, h25⟩ := quantile_isSome_of_isSome t (10 / 100) (25 / 100) q10 h10
    obtain ⟨q75, h75⟩ := quantile_isSome_of_isSome t (10 / 100) (75 / 100) q10 h10
    obtain ⟨q85, h85⟩ := quantile_isSome_of_isSome t (10 / 100) (85 / 100) q10 h10
    obtain ⟨q95, h95⟩ := quantile_isSome_of_isSome t (10 / 100) (95 / 100) q10 h10
    have m25 : q10 ≤ q25 := quantile_mono t _ _ _ _ (by norm_num) (by norm_num) h10 h25
    have m75 : q10 ≤ q75 := quantile_mono t _ _ _ _ (by norm_num) (by norm_num) h10 h75
    have m85 : q10 ≤ q85 := quantile_mono t _ _ _ _ (by norm_num) (by norm_num) h10 h85
    have m95 : q10 ≤ q95 := quantile_mono t _ _ _ _ (by norm_num) (by norm_num) h10 h95
    have hmn0 : mn < 0 :=
      quantile_neg _ _ _ (by linarith) (fun x hx => mem_filter_neg t x hx) hmn
    rw [hchar, h10, h25, h75, h85, h95, hmn]
    have b1 : vlt (some v) (some q10) = true := by
      rw [vlt_some]; exact decide_eq_true hv
    have b2 : vlt (some q10) (some v) = false := by
      rw [vlt_some]; exact decide_eq_false (by linarith)
    have b3 : vlt (some q25) (some v) = false := by
      rw [vlt_some]; exact decide_eq_false (by linarith)
    have b4 : vlt (some mn) (some v) = false := by
      rw [vlt_some]; exact decide_eq_false (by linarith)
    have b6 : vlt (some q75) (some v) = false := by
      rw [vlt_some]; exact decide_eq_false (by linarith)
    have b7 : vlt (some q85) (some v) = false := by
      rw [vlt_some]; exact decide_eq_false (by linarith)
    have b8 : vlt (some q95) (some v) = false := by
      rw [vlt_some]; exact decide_eq_false (by linarith)
    cases hmpv : quantile (t.filter (fun u => vlt (some 0) u)) noise with
    | none =>
      simp only [dirLabel, b1, b2, b3, b4, b6, b7, b8, vlt_right_none,
        vlt_left_none,
        Bool.and_false, Bool.false_and, Bool.and_true, Bool.true_and,
        if_false, if_true, Bool.false_eq_true]
    | some mp =>
      have hmp0 : 0 < mp :=
        quantile_pos _ _ _ h0n (fun x hx => mem_filter_pos t x hx) hmpv
      have b5 : vlt (some mp) (some v) = false := by
        rw [vlt_some]; exact decide_eq_false (by linarith)
      simp only [dirLabel, b1, b2, b3, b4, b5, b6, b7, b8,
        Bool.and_false, Bool.false_and, Bool.and_true, Bool.true_and,
        if_false, if_true, Bool.false_eq_true]
  · obtain ⟨q85, h85⟩ := quantile_isSome_of_isSome t (75 / 100) (85 / 100) q75 h75
    obtain ⟨q95, h95⟩ := quantile_isSome_of_isSome t (75 / 100) (95 / 100) q75 h75
    have m85 : q75 ≤ q85 := quantile_mono t _ _ _ _ (by norm_num) (by norm_num) h75 h85
    have m95 : q75 ≤ q95 := quantile_mono t _ _ _ _ (by norm_num) (by norm_num) h75 h95
    obtain ⟨q10, h10⟩ := quantile_isSome_of_isSome t (75 / 100) (10 / 100) q75 h75
    obtain ⟨q25, h25⟩ := quantile_isSome_of_isSome t (75 / 100) (25 / 100) q75 h75
    rw [hchar, h10, h25, h75, h85, h95, hmn, hmp]
    have b4a : vlt (some mn) (some v) = true := by
      rw [vlt_some]; exact decide_eq_true hv1
    have b4b : vlt (some v) (some mp) = true := by
      rw [vlt_some]; exact decide_eq_true hv2
    have b5 : vlt (some mp) (some v) = false := by
      rw [vlt_some]; exact decide_eq_false (by linarith)
    have b6 : vlt (some q75) (some v) = false := by
      rw [vlt_some]; exact decide_eq_false (by linarith)
    have b7 : vlt (some q85) (some v) = false := by
      rw [vlt_some]; exact decide_eq_false (by linarith)
    have b8 : vlt (some q95) (some v) = false := by
      rw [vlt_some]; exact decide_eq_false (by linarith)
    simp only [dirLabel, b4a, b4b, b5, b6, b7, b8,
      Bool.and_false, Bool.false_and, Bool.and_true, Bool.true_and,
      if_false, if_true, Bool.false_eq_true]

/-- Concrete table for the C1 witness: four negative and four positive
pct values; with noise threshold 7/100 the thresholds are q10 = -33/10,
q75 = 9/4, q95 = 73/20, min_negative_pct = -121/100 and
min_positive_pct = 121/100, so both provisos of the amended claim hold. -/
def c1w : DF := [("Close-pct",
  [some (-4), some (-3), some (-2), some (-1), some 1, some 2, some 3,
   some 4])]

/-- Witness for C1 (amended): in table c1w the row with value 4 (above
the 95th percentile) ends labeled 7, the row with value -4 (below the
10th percentile, noise band above it) ends labeled -7, and the row with
value -1 (inside the noise band, which stays below the 75th percentile)
ends labeled 0. -/
theorem C1_direction_amended_witness :
    (getCol (proc_add_direction c1w "Close" [] [] (7 / 100)).1
      "Close-direction").get? 7 = some (some 7) ∧
    (getCol (proc_add_direction c1w "Close" [] [] (7 / 100)).1
      "Close-direction").get? 0 = some (some (-7)) ∧
    (getCol (proc_add_direction c1w "Close" [] [] (7 / 100)).1
      "Close-direction").get? 3 = some (some 0) := by
  refine ⟨?_, ?_, ?_⟩
  · exact (C1_direction_amended c1w "Close" [] [] (7 / 100) 7 4 (by decide)
      (by decide) rfl (by norm_num) (by norm_num)).1 (73 / 20)
      (by norm_num [c1w, getCol, quantile, interpWalk, List.insertionSort,
        List.orderedInsert, List.filterMap]) (by norm_num)
  · exact (C1_direction_amended c1w "Close" [] [] (7 / 100) 0 (-4) (by decide)
      (by decide) rfl (by norm_num) (by norm_num)).2.1 (-33 / 10) (-121 / 100)
      (by norm_num [c1w, getCol, quantile, interpWalk, List.insertionSort,
        List.orderedInsert, List.filterMap])
      (by norm_num [c1w, getCol, quantile, interpWalk, List.insertionSort,
        List.orderedInsert, List.filterMap, List.filter, vlt])
      (by norm_num) (by norm_num)
  · exact (C1_direction_amended c1w "Close" [] [] (7 / 100) 3 (-1) (by decide)
      (by decide) rfl (by norm_num) (by norm_num)).2.2 (-121 / 100) (121 / 100)
      (9 / 4)
      (by norm_num [c1w, getCol, quantile, interpWalk, List.insertionSort,
        List.orderedInsert, List.filterMap, List.filter, vlt])
      (by norm_num [c1w, getCol, quantile, interpWalk, List.insertionSort,
        List.orderedInsert, List.filterMap, List.filter, vlt])
      (by norm_num [c1w, getCol, quantile, interpWalk, List.insertionSort,
        List.orderedInsert, List.filterMap])
      (by norm_num) (by norm_num) (by norm_num)
